import Mathlib

/-!
Verification development for the UVM channel manager
(src/general_evaluation/cflow/14.c).

The file shallowly embeds the channel / ring-buffer protocol, the
progress-reclamation loop, push submission, the fault/health surface and
the copy-engine selection heuristic of that translation unit, and proves
the behavioral claims about them.

Machine integers: `cpu_put` / `gpu_get` are always reduced modulo the ring
capacity by the code itself, `current_pushes_count` is bounded by the
capacity, and the 64-bit tracking counter is the logical monotonic
completion value (the spec treats the 64-bit value as the wide logical
counter, reconstructed on narrower hardware), so these are embedded as
`Nat`.  The one place where 32-bit wraparound is semantically visible -
the `NvU32` subtractions inside the copy-engine comparator that are
returned as C `int` - is embedded exactly, via `i32diff`.
-/

namespace UvmChannel

/-- NV_STATUS values used by this translation unit. -/
inductive NV_STATUS where
  | NV_OK
  | NV_ERR_NO_MEMORY
  | NV_ERR_RC_ERROR
  | NV_ERR_ECC_ERROR
  | NV_ERR_NOT_SUPPORTED
  | NV_ERR_OPERATING_SYSTEM
  | NV_ERR_GENERIC
deriving DecidableEq

/-- uvm_channel_update_mode_t (14.c lines 45-53). -/
inductive uvm_channel_update_mode_t where
  | UVM_CHANNEL_UPDATE_MODE_COMPLETED
  | UVM_CHANNEL_UPDATE_MODE_FORCE_ALL
deriving DecidableEq

open uvm_channel_update_mode_t

/-- One GPFIFO ring entry (uvm_gpfifo_entry_t): the tracking-semaphore value
released by the push, the staged pushbuffer region (offset/size) and the
bound push-info (metadata) slot, referenced here by its index. -/
structure uvm_gpfifo_entry_t where
  tracking_semaphore_value : Nat
  pushbuffer_offset : Nat
  pushbuffer_size : Nat
  push_info : Nat
deriving DecidableEq

/-- CPU-side bookkeeping of one channel (uvm_channel_t), restricted to the
fields this translation unit reads and writes under the pool lock:
ring capacity `channel_info.numGpFifoEntries`, the `cpu_put` / `gpu_get`
cursors, `current_pushes_count`, the ring array `gpfifo_entries`, the
tracking semaphore's `queued_value` and the `available_push_infos`
free list (push-info slots by index, list order = C list order). -/
structure uvm_channel_t where
  numGpFifoEntries : Nat
  cpu_put : Nat
  gpu_get : Nat
  current_pushes_count : Nat
  gpfifo_entries : Nat → uvm_gpfifo_entry_t
  queued_value : Nat
  available_push_infos : List Nat

/-- is_channel_available (14.c lines 126-135): under the pool lock,
`next_put = (cpu_put + current_pushes_count + 1) % numGpFifoEntries`;
the channel is available iff `next_put != gpu_get`. -/
def is_channel_available (channel : uvm_channel_t) : Bool :=
  decide (((channel.cpu_put + channel.current_pushes_count + 1) % channel.numGpFifoEntries)
            ≠ channel.gpu_get)

/-- try_claim_channel (14.c lines 137-151): under the pool lock, if the
channel is available increment `current_pushes_count` and report success,
otherwise change nothing and report failure. -/
def try_claim_channel (channel : uvm_channel_t) : uvm_channel_t × Bool :=
  if is_channel_available channel then
    ({ channel with current_pushes_count := channel.current_pushes_count + 1 }, true)
  else
    (channel, false)

/-- The pending-GPFIFO count computation of
uvm_channel_update_progress_with_max (14.c lines 88-91):
`if (cpu_put >= gpu_get) pending = cpu_put - gpu_get;
 else pending = numGpFifoEntries - gpu_get + cpu_put`. -/
def pendingLen (numEntries gpu_get cpu_put : Nat) : Nat :=
  if cpu_put ≥ gpu_get then cpu_put - gpu_get else numEntries - gpu_get + cpu_put

/-- Number of pending (submitted, unretired) ring entries of a channel. -/
def pending_count (channel : uvm_channel_t) : Nat :=
  pendingLen channel.numGpFifoEntries channel.gpu_get channel.cpu_put

/-- The retirement loop of uvm_channel_update_progress_with_max
(14.c lines 72-82), with the remaining budget (`max_to_complete` minus
`completed_count`) as the recursion fuel.  Returns the final `gpu_get`
and the retired entries in retirement order.  Retiring an entry marks its
pushbuffer region completed and appends its push_info to the available
list; both effects are captured by returning the retired entries. -/
def retireLoop (numEntries : Nat) (ring : Nat → uvm_gpfifo_entry_t)
    (mode : uvm_channel_update_mode_t) (completed_value : Nat) (cpu_put : Nat) :
    Nat → Nat → Nat × List uvm_gpfifo_entry_t
  | gpu_get, 0 => (gpu_get, [])
  | gpu_get, fuel + 1 =>
    if gpu_get = cpu_put then (gpu_get, [])
    else if mode = UVM_CHANNEL_UPDATE_MODE_COMPLETED ∧
            completed_value < (ring gpu_get).tracking_semaphore_value then
      (gpu_get, [])
    else
      let r := retireLoop numEntries ring mode completed_value cpu_put
                 ((gpu_get + 1) % numEntries) fuel
      (r.1, ring gpu_get :: r.2)

/-- uvm_channel_update_progress_with_max (14.c lines 56-94).  The freshly
read completed value of the tracking semaphore is an input from the
external tracking-counter adapter.  Returns the updated channel, the
returned pending-GPFIFO count, and the retired entries (whose pushbuffer
regions are marked completed and whose push_infos are appended, in
retirement order, to `available_push_infos`). -/
def uvm_channel_update_progress_with_max (channel : uvm_channel_t)
    (max_to_complete : Nat) (mode : uvm_channel_update_mode_t)
    (completed_value : Nat) : uvm_channel_t × Nat × List uvm_gpfifo_entry_t :=
  let r := retireLoop channel.numGpFifoEntries channel.gpfifo_entries mode
             completed_value channel.cpu_put channel.gpu_get max_to_complete
  ({ channel with
      gpu_get := r.1,
      available_push_infos :=
        channel.available_push_infos ++ r.2.map (fun e => e.push_info) },
   pendingLen channel.numGpFifoEntries r.1 channel.cpu_put,
   r.2)

/-- uvm_channel_update_progress (14.c lines 96-101): budget 8, completed
mode. -/
def uvm_channel_update_progress (channel : uvm_channel_t) (completed_value : Nat) :
    uvm_channel_t × Nat × List uvm_gpfifo_entry_t :=
  uvm_channel_update_progress_with_max channel 8 UVM_CHANNEL_UPDATE_MODE_COMPLETED
    completed_value

/-- channel_update_progress_all (14.c lines 106-109): budget = ring
capacity. -/
def channel_update_progress_all (channel : uvm_channel_t)
    (mode : uvm_channel_update_mode_t) (completed_value : Nat) :
    uvm_channel_t × Nat × List uvm_gpfifo_entry_t :=
  uvm_channel_update_progress_with_max channel channel.numGpFifoEntries mode
    completed_value

/-- Externally observable effects of uvm_channel_end_push: the allocated
tracking value, the 32-bit payload handed to the semaphore-release HAL
call, and the doorbell (GPPUT) write. -/
structure end_push_result where
  new_tracking_value : Nat
  semaphore_payload : Nat
  doorbell_written : Bool
  doorbell_put : Nat
deriving DecidableEq

/-- uvm_channel_end_push (14.c lines 243-312), under the pool lock:
allocate `new_tracking_value = ++queued_value`; release the tracking
semaphore with the 32-bit payload; write the ring entry at index `cpu_put`
(tracking value, pushbuffer offset/size of the push, bound push-info
slot); decrement `current_pushes_count` (asserted positive); advance
`cpu_put` modulo the capacity; write the doorbell (GPPUT) with the new
put.  The pushbuffer offset, GPU VA and push size come from the external
pushbuffer collaborator and are inputs here. -/
def uvm_channel_end_push (channel : uvm_channel_t) (push_info_index : Nat)
    (pushbuffer_offset : Nat) (push_size : Nat) :
    uvm_channel_t × end_push_result :=
  let new_tracking_value := channel.queued_value + 1
  let cpu_put := channel.cpu_put
  let new_cpu_put := (cpu_put + 1) % channel.numGpFifoEntries
  let entry : uvm_gpfifo_entry_t :=
    { tracking_semaphore_value := new_tracking_value,
      pushbuffer_offset := pushbuffer_offset,
      pushbuffer_size := push_size,
      push_info := push_info_index }
  ({ channel with
      queued_value := new_tracking_value,
      gpfifo_entries := fun i => if i = cpu_put then entry else channel.gpfifo_entries i,
      current_pushes_count := channel.current_pushes_count - 1,
      cpu_put := new_cpu_put },
   { new_tracking_value := new_tracking_value,
     semaphore_payload := new_tracking_value % 2 ^ 32,
     doorbell_written := true,
     doorbell_put := new_cpu_put })

/-- The inputs read by uvm_channel_get_status (14.c lines 354-372): the
channel's error-notifier status field, whether ECC is enabled on the GPU,
and the GPU's ECC error-notifier flag at the moment of the call. -/
structure channel_error_view where
  notifier_status : Nat
  ecc_enabled : Bool
  ecc_error_notifier : Bool
deriving DecidableEq

/-- uvm_channel_get_status (14.c lines 354-372): NV_OK iff the channel's
error-notifier status is zero; otherwise NV_ERR_ECC_ERROR exactly when ECC
is enabled and the GPU ECC error notifier is set, else NV_ERR_RC_ERROR. -/
def uvm_channel_get_status (v : channel_error_view) : NV_STATUS :=
  if v.notifier_status = 0 then NV_STATUS.NV_OK
  else if v.ecc_enabled && v.ecc_error_notifier then NV_STATUS.NV_ERR_ECC_ERROR
  else NV_STATUS.NV_ERR_RC_ERROR

/-- The global (process/device-wide) error state behind uvm_global_get_status
and uvm_global_set_fatal_error; `none` means NV_OK. -/
structure uvm_global_state where
  fatal_error : Option NV_STATUS
deriving DecidableEq

/-- Modelled from the spec: uvm_global_set_fatal_error is declared in
uvm8_global.h, which is not under src/.  Spec sections 4.4, 7 and 9: the
global fatal status is a single shared sticky cell with set-once-wins
semantics ("Escalate by setting a sticky process/device-wide fatal
status"). -/
def uvm_global_set_fatal_error (g : uvm_global_state) (status : NV_STATUS) :
    uvm_global_state :=
  match g.fatal_error with
  | some _ => g
  | none => { fatal_error := some status }

/-- Modelled from the spec: uvm_global_get_status is declared in
uvm8_global.h, which is not under src/.  It reads the sticky global fatal
status cell; NV_OK when no fatal error has been recorded. -/
def uvm_global_get_status (g : uvm_global_state) : NV_STATUS :=
  g.fatal_error.getD NV_STATUS.NV_OK

/-- uvm_channel_check_errors (14.c lines 381-400): read the channel status;
if healthy, return NV_OK without touching the global state; otherwise
(after diagnostic printing of the likely offending entry, which has no
bearing on state) set the global fatal error and return the channel's
status. -/
def uvm_channel_check_errors (g : uvm_global_state) (v : channel_error_view) :
    NV_STATUS × uvm_global_state :=
  let status := uvm_channel_get_status v
  if status = NV_STATUS.NV_OK then (NV_STATUS.NV_OK, g)
  else (status, uvm_global_set_fatal_error g status)

/-- The channel iteration of uvm_channel_manager_check_errors (14.c lines
410-414): check each channel in turn, stopping at the first non-OK
status. -/
def manager_check_errors_loop (g : uvm_global_state) :
    List channel_error_view → NV_STATUS × uvm_global_state
  | [] => (NV_STATUS.NV_OK, g)
  | v :: rest =>
    let r := uvm_channel_check_errors g v
    if r.1 ≠ NV_STATUS.NV_OK then r else manager_check_errors_loop r.2 rest

/-- uvm_channel_manager_check_errors (14.c lines 402-417): return the
global status if it is already fatal, otherwise check every channel of the
manager in turn. -/
def uvm_channel_manager_check_errors (g : uvm_global_state)
    (channels : List channel_error_view) : NV_STATUS × uvm_global_state :=
  if uvm_global_get_status g ≠ NV_STATUS.NV_OK then (uvm_global_get_status g, g)
  else manager_check_errors_loop g channels

/-- A point-in-time snapshot of a manager's global error cell together with
one of its channels, used to relate claim attempts to the fatal flag. -/
structure manager_snapshot where
  global : uvm_global_state
  channel : uvm_channel_t

/-- A claim attempt on a channel of the manager: uvm_channel_reserve and
uvm_channel_reserve_type both attempt claims via try_claim_channel
(14.c lines 161, 172, 319, 325), which consults only the ring cursors and
never the global error state. -/
def manager_claim_attempt (m : manager_snapshot) : manager_snapshot × Bool :=
  let r := try_claim_channel m.channel
  ({ m with channel := r.1 }, r.2)

/-- uvm_channel_type_t; UVM_CHANNEL_TYPE_COUNT = 6, UVM_CHANNEL_TYPE_ANY is
never instantiated. -/
inductive uvm_channel_type_t where
  | UVM_CHANNEL_TYPE_CPU_TO_GPU
  | UVM_CHANNEL_TYPE_GPU_TO_CPU
  | UVM_CHANNEL_TYPE_GPU_INTERNAL
  | UVM_CHANNEL_TYPE_MEMOPS
  | UVM_CHANNEL_TYPE_GPU_TO_GPU
  | UVM_CHANNEL_TYPE_ANY
deriving DecidableEq

open uvm_channel_type_t

/-- Modelled from the spec: the capability-table entry UvmGpuCopyEngineCaps
comes from the external interface header (nv_uvm_types.h), which is not
under src/.  Spec section 4.5 and the code's uses: boolean flags for
supported, graphics-reserved (grce), sharing of physical units, fast
sysmem read/write capability, sysmem capability, NVLINK peer capability
and peer capability, plus the 32-bit mask of assigned physical copy
engines. -/
structure UvmGpuCopyEngineCaps where
  supported : Bool
  grce : Bool
  shared : Bool
  sysmemRead : Bool
  sysmemWrite : Bool
  sysmem : Bool
  nvlinkP2p : Bool
  p2p : Bool
  cePceMask : Nat
deriving DecidableEq

/-- ce_usable_for_channel_type (14.c lines 623-641). -/
def ce_usable_for_channel_type (type : uvm_channel_type_t)
    (cap : UvmGpuCopyEngineCaps) : Bool :=
  if !cap.supported || cap.grce then false
  else
    match type with
    | UVM_CHANNEL_TYPE_CPU_TO_GPU => cap.sysmem
    | UVM_CHANNEL_TYPE_GPU_TO_CPU => cap.sysmem
    | UVM_CHANNEL_TYPE_GPU_INTERNAL => true
    | UVM_CHANNEL_TYPE_MEMOPS => true
    | UVM_CHANNEL_TYPE_GPU_TO_GPU => cap.p2p
    | UVM_CHANNEL_TYPE_ANY => false

/-- Population count of the low 32 bits, i.e. the kernel's hweight32. -/
def hweightAux : Nat → Nat → Nat
  | 0, _ => 0
  | w + 1, n => n % 2 + hweightAux w (n / 2)

/-- hweight32: number of set bits among the low 32 bits. -/
def hweight32 (n : Nat) : Nat := hweightAux 32 n

/-- NvBool promoted to C int. -/
def b2i (b : Bool) : Int := if b then 1 else 0

/-- The C value `(int)(a - b)` where `a - b` is computed in NvU32
arithmetic: the unsigned 32-bit difference reinterpreted as a signed
32-bit integer. -/
def i32diff (a b : Nat) : Int :=
  let d : Nat := (a % 2 ^ 32 + 2 ^ 32 - b % 2 ^ 32) % 2 ^ 32
  if d < 2 ^ 31 then (d : Int) else (d : Int) - 2 ^ 32

/-- The default ordering tail of compare_ce_for_channel_type (14.c lines
730-739): ascending usage count, then non-shared engines, then lowest
index.  The usage-count and index subtractions are NvU32 subtractions
returned as C int. -/
def compare_ce_default_order (caps : Nat → UvmGpuCopyEngineCaps)
    (usage_count : Nat → Nat) (ce_index1 ce_index2 : Nat) : Int :=
  if usage_count ce_index1 ≠ usage_count ce_index2 then
    i32diff (usage_count ce_index1) (usage_count ce_index2)
  else if (caps ce_index1).shared ≠ (caps ce_index2).shared then
    b2i (caps ce_index1).shared - b2i (caps ce_index2).shared
  else i32diff ce_index1 ce_index2

/-- compare_ce_for_channel_type (14.c lines 644-740): negative iff the
first copy engine is considered better than the second for the given
channel type.  NvBool bitfields promote to int, so their differences are
computed exactly; the hweight32 differences are computed with explicit
int casts in the C code. -/
def compare_ce_for_channel_type (caps : Nat → UvmGpuCopyEngineCaps)
    (type : uvm_channel_type_t) (ce_index1 ce_index2 : Nat)
    (usage_count : Nat → Nat) : Int :=
  let cap1 := caps ce_index1
  let cap2 := caps ce_index2
  match type with
  | UVM_CHANNEL_TYPE_CPU_TO_GPU =>
    if cap1.sysmemRead ≠ cap2.sysmemRead then b2i cap2.sysmemRead - b2i cap1.sysmemRead
    else if cap1.nvlinkP2p ≠ cap2.nvlinkP2p then b2i cap1.nvlinkP2p - b2i cap2.nvlinkP2p
    else compare_ce_default_order caps usage_count ce_index1 ce_index2
  | UVM_CHANNEL_TYPE_GPU_TO_CPU =>
    if cap1.sysmemWrite ≠ cap2.sysmemWrite then b2i cap2.sysmemWrite - b2i cap1.sysmemWrite
    else if cap1.nvlinkP2p ≠ cap2.nvlinkP2p then b2i cap1.nvlinkP2p - b2i cap2.nvlinkP2p
    else compare_ce_default_order caps usage_count ce_index1 ce_index2
  | UVM_CHANNEL_TYPE_GPU_TO_GPU =>
    if cap1.nvlinkP2p ≠ cap2.nvlinkP2p then b2i cap2.nvlinkP2p - b2i cap1.nvlinkP2p
    else if cap1.nvlinkP2p then
      if (hweight32 cap2.cePceMask : Int) - (hweight32 cap1.cePceMask : Int) ≠ 0 then
        (hweight32 cap2.cePceMask : Int) - (hweight32 cap1.cePceMask : Int)
      else compare_ce_default_order caps usage_count ce_index1 ce_index2
    else compare_ce_default_order caps usage_count ce_index1 ce_index2
  | UVM_CHANNEL_TYPE_GPU_INTERNAL =>
    if (hweight32 cap2.cePceMask : Int) - (hweight32 cap1.cePceMask : Int) ≠ 0 then
      (hweight32 cap2.cePceMask : Int) - (hweight32 cap1.cePceMask : Int)
    else if cap1.nvlinkP2p ≠ cap2.nvlinkP2p then b2i cap1.nvlinkP2p - b2i cap2.nvlinkP2p
    else compare_ce_default_order caps usage_count ce_index1 ce_index2
  | UVM_CHANNEL_TYPE_MEMOPS =>
    compare_ce_default_order caps usage_count ce_index1 ce_index2
  | UVM_CHANNEL_TYPE_ANY => 0

/-- The best_ce loop of pick_ce_for_channel_type (14.c lines 742-760):
scan engines 0 .. ce_count-1; skip unusable ones; take the first usable
engine, then replace the current best whenever the comparator prefers the
candidate.  The sentinel for "none found" is ce_count
(UVM_COPY_ENGINE_COUNT_MAX); the table size is kept as the parameter
`ce_count` since the header defining UVM_COPY_ENGINE_COUNT_MAX is not
under src/.  `pick_step` is one iteration of the loop body. -/
def pick_step (ce_count : Nat) (caps : Nat → UvmGpuCopyEngineCaps)
    (type : uvm_channel_type_t) (usage_count : Nat → Nat) (best_ce i : Nat) : Nat :=
  if ce_usable_for_channel_type type (caps i) = false then best_ce
  else if best_ce = ce_count then i
  else if compare_ce_for_channel_type caps type i best_ce usage_count < 0 then i
  else best_ce

/-- The full best_ce scan over engines 0 .. ce_count-1. -/
def pick_best_ce (ce_count : Nat) (caps : Nat → UvmGpuCopyEngineCaps)
    (type : uvm_channel_type_t) (usage_count : Nat → Nat) : Nat :=
  (List.range ce_count).foldl (pick_step ce_count caps type usage_count) ce_count

/-- pick_ce_for_channel_type (14.c lines 742-764): pick the best engine,
then increment its usage count (`++usage_count[best_ce]`, performed
unconditionally, even when `best_ce` is the sentinel) and record the
assignment for the type. -/
def pick_ce_for_channel_type (ce_count : Nat) (caps : Nat → UvmGpuCopyEngineCaps)
    (type : uvm_channel_type_t) (usage_count : Nat → Nat)
    (ce_to_use_by_type : uvm_channel_type_t → Nat) :
    (Nat → Nat) × (uvm_channel_type_t → Nat) :=
  let best_ce := pick_best_ce ce_count caps type usage_count
  (fun j => if j = best_ce then usage_count j + 1 else usage_count j,
   fun t => if t = type then best_ce else ce_to_use_by_type t)

/-- State after picking the CPU_TO_GPU engine (14.c line 779); usage counts
start at zero and every assignment starts at the sentinel. -/
def pick_state_1 (ce_count : Nat) (caps : Nat → UvmGpuCopyEngineCaps) :
    (Nat → Nat) × (uvm_channel_type_t → Nat) :=
  pick_ce_for_channel_type ce_count caps UVM_CHANNEL_TYPE_CPU_TO_GPU
    (fun _ => 0) (fun _ => ce_count)

/-- State after additionally picking the GPU_TO_CPU engine (14.c line 780). -/
def pick_state_2 (ce_count : Nat) (caps : Nat → UvmGpuCopyEngineCaps) :
    (Nat → Nat) × (uvm_channel_type_t → Nat) :=
  pick_ce_for_channel_type ce_count caps UVM_CHANNEL_TYPE_GPU_TO_CPU
    (pick_state_1 ce_count caps).1 (pick_state_1 ce_count caps).2

/-- State after additionally picking the GPU_INTERNAL engine (14.c line 781). -/
def pick_state_3 (ce_count : Nat) (caps : Nat → UvmGpuCopyEngineCaps) :
    (Nat → Nat) × (uvm_channel_type_t → Nat) :=
  pick_ce_for_channel_type ce_count caps UVM_CHANNEL_TYPE_GPU_INTERNAL
    (pick_state_2 ce_count caps).1 (pick_state_2 ce_count caps).2

/-- State after additionally picking the GPU_TO_GPU engine (14.c line 782). -/
def pick_state_4 (ce_count : Nat) (caps : Nat → UvmGpuCopyEngineCaps) :
    (Nat → Nat) × (uvm_channel_type_t → Nat) :=
  pick_ce_for_channel_type ce_count caps UVM_CHANNEL_TYPE_GPU_TO_GPU
    (pick_state_3 ce_count caps).1 (pick_state_3 ce_count caps).2

/-- State after finally picking the MEMOPS engine (14.c line 785). -/
def pick_state_5 (ce_count : Nat) (caps : Nat → UvmGpuCopyEngineCaps) :
    (Nat → Nat) × (uvm_channel_type_t → Nat) :=
  pick_ce_for_channel_type ce_count caps UVM_CHANNEL_TYPE_MEMOPS
    (pick_state_4 ce_count caps).1 (pick_state_4 ce_count caps).2

/-- channel_manager_pick_copy_engines (14.c lines 766-799): pick engines in
the fixed order CPU_TO_GPU, GPU_TO_CPU, GPU_INTERNAL, GPU_TO_GPU, MEMOPS,
then fail with NV_ERR_NOT_SUPPORTED if any channel type other than ANY is
still assigned to the sentinel. -/
def channel_manager_pick_copy_engines (ce_count : Nat)
    (caps : Nat → UvmGpuCopyEngineCaps) :
    NV_STATUS × (uvm_channel_type_t → Nat) :=
  let a := (pick_state_5 ce_count caps).2
  (if a UVM_CHANNEL_TYPE_CPU_TO_GPU = ce_count ∨
      a UVM_CHANNEL_TYPE_GPU_TO_CPU = ce_count ∨
      a UVM_CHANNEL_TYPE_GPU_INTERNAL = ce_count ∨
      a UVM_CHANNEL_TYPE_MEMOPS = ce_count ∨
      a UVM_CHANNEL_TYPE_GPU_TO_GPU = ce_count
   then NV_STATUS.NV_ERR_NOT_SUPPORTED else NV_STATUS.NV_OK,
   a)

/-- Outcomes of the external collaborators invoked by
uvm_channel_manager_create_common: pushbuffer creation, the procfs
surfaces, pool/channel creation (remote handle allocation and memory
allocation) and the per-channel bring-up submissions.  They are inputs of
the model because their implementations live outside this translation
unit. -/
structure create_common_env where
  pushbuffer_status : NV_STATUS
  with_procfs : Bool
  procfs_dirs_status : NV_STATUS
  pools_status : NV_STATUS
  init_channels_status : NV_STATUS
  procfs_status : NV_STATUS

/-- uvm_channel_manager_create_common (14.c lines 801-856): allocate the
manager; create the pushbuffer; create the procfs dirs (when enabled);
pick the copy engines; create the per-type pools; run the bring-up
submissions; create the manager procfs files.  The first failing step
aborts, unwinds via uvm_channel_manager_destroy, and its status is
returned; only on full success is a manager produced (second component
true). -/
def uvm_channel_manager_create_common (env : create_common_env)
    (ce_count : Nat) (caps : Nat → UvmGpuCopyEngineCaps) : NV_STATUS × Bool :=
  if env.pushbuffer_status ≠ NV_STATUS.NV_OK then (env.pushbuffer_status, false)
  else if env.with_procfs ∧ env.procfs_dirs_status ≠ NV_STATUS.NV_OK then
    (env.procfs_dirs_status, false)
  else if (channel_manager_pick_copy_engines ce_count caps).1 ≠ NV_STATUS.NV_OK then
    ((channel_manager_pick_copy_engines ce_count caps).1, false)
  else if env.pools_status ≠ NV_STATUS.NV_OK then (env.pools_status, false)
  else if env.init_channels_status ≠ NV_STATUS.NV_OK then (env.init_channels_status, false)
  else if env.with_procfs ∧ env.procfs_status ≠ NV_STATUS.NV_OK then
    (env.procfs_status, false)
  else (NV_STATUS.NV_OK, true)

/-! ## Modular-arithmetic helpers for the ring cursors -/

theorem succ_mod_eq (x N : Nat) (h : x < N) :
    (x + 1) % N = if x + 1 = N then 0 else x + 1 := by
  split_ifs with h1
  · rw [h1, Nat.mod_self]
  · exact Nat.mod_eq_of_lt (by omega)

theorem add_mod_eq (g e N : Nat) (hg : g < N) (he : e ≤ N) :
    (g + e) % N = if g + e < N then g + e else g + e - N := by
  split_ifs with h1
  · exact Nat.mod_eq_of_lt h1
  · rw [Nat.mod_eq_sub_mod (by omega)]
    exact Nat.mod_eq_of_lt (by omega)

theorem pendingLen_lt (N g p : Nat) (hg : g < N) (hp : p < N) :
    pendingLen N g p < N := by
  unfold pendingLen; split <;> omega

theorem pendingLen_eq_zero_iff (N g p : Nat) (hg : g < N) (_hp : p < N) :
    pendingLen N g p = 0 ↔ g = p := by
  unfold pendingLen; split <;> omega

theorem pendingLen_succ_get (N g p : Nat) (hg : g < N) (hp : p < N) (hne : g ≠ p) :
    pendingLen N ((g + 1) % N) p = pendingLen N g p - 1 := by
  rw [succ_mod_eq g N hg]
  unfold pendingLen
  split_ifs <;> omega

theorem pendingLen_succ_put (N g p : Nat) (hg : g < N) (hp : p < N)
    (hroom : pendingLen N g p + 1 < N) :
    pendingLen N g ((p + 1) % N) = pendingLen N g p + 1 := by
  rw [succ_mod_eq p N hp]
  unfold pendingLen at *
  split_ifs at * <;> omega

theorem pendingLen_add_get (N g p : Nat) (hg : g < N) (hp : p < N) :
    ∀ k, k ≤ pendingLen N g p → pendingLen N ((g + k) % N) p = pendingLen N g p - k := by
  intro k
  induction k with
  | zero => intro _; rw [Nat.add_zero, Nat.mod_eq_of_lt hg, Nat.sub_zero]
  | succ k ih =>
    intro hk
    have hNpos : 0 < N := by omega
    have hgk : (g + k) % N < N := Nat.mod_lt _ hNpos
    have hih := ih (by omega)
    have hne : (g + k) % N ≠ p := by
      intro hEq
      have := (pendingLen_eq_zero_iff N ((g + k) % N) p hgk hp).mpr hEq
      omega
    have hstep := pendingLen_succ_get N ((g + k) % N) p hgk hp hne
    have hmod : ((g + k) % N + 1) % N = (g + (k + 1)) % N := by
      rw [Nat.mod_add_mod]
      ring_nf
    rw [← hmod, hstep, hih]
    omega

/-- The availability test, under the occupancy invariant: the claim
condition `(cpu_put + current_pushes_count + 1) % N != gpu_get` holds iff
one more claim still keeps `current_pushes_count + pending` at most
`N - 1`. -/
theorem available_iff_room (N g p c : Nat) (hg : g < N) (_hp : p < N)
    (hinv : c + pendingLen N g p + 1 ≤ N) :
    ((p + c + 1) % N ≠ g) ↔ c + pendingLen N g p + 1 < N := by
  rcases le_or_lt g p with h | h
  · have hd : pendingLen N g p = p - g := by unfold pendingLen; split <;> omega
    have he : p + c + 1 = g + (c + pendingLen N g p + 1) := by omega
    rw [he, add_mod_eq g (c + pendingLen N g p + 1) N hg (by omega)]
    split_ifs with h2 <;> omega
  · have hd : pendingLen N g p = N - g + p := by unfold pendingLen; split <;> omega
    have he : (p + c + 1) + N = g + (c + pendingLen N g p + 1) := by omega
    have h3 : (p + c + 1) % N = (g + (c + pendingLen N g p + 1)) % N := by
      rw [← he, Nat.add_mod_right]
    rw [h3, add_mod_eq g (c + pendingLen N g p + 1) N hg (by omega)]
    split_ifs with h2 <;> omega

/-! ## C1: the claim protocol -/

/-- A channel with ring capacity 4, empty and with no outstanding claims,
used as the concrete example state. -/
def claim_example_channel : uvm_channel_t :=
  { numGpFifoEntries := 4, cpu_put := 0, gpu_get := 0, current_pushes_count := 0,
    gpfifo_entries := fun i =>
      { tracking_semaphore_value := i + 1, pushbuffer_offset := 0,
        pushbuffer_size := 0, push_info := i },
    queued_value := 0, available_push_infos := [0, 1, 2, 3] }

/-- C1: a claim attempt succeeds iff
`(cpu_put + current_pushes_count + 1) mod N != gpu_get` at the moment of
the attempt; on success it increments `current_pushes_count` by exactly
one and leaves `cpu_put`, `gpu_get` and the ring contents unchanged; on
failure it changes nothing. -/
theorem claim_succeeds_iff_space (channel : uvm_channel_t) :
    ((try_claim_channel channel).2 = true ↔
      (channel.cpu_put + channel.current_pushes_count + 1) % channel.numGpFifoEntries
        ≠ channel.gpu_get)
    ∧ ((try_claim_channel channel).2 = true →
        (try_claim_channel channel).1.current_pushes_count
            = channel.current_pushes_count + 1
          ∧ (try_claim_channel channel).1.cpu_put = channel.cpu_put
          ∧ (try_claim_channel channel).1.gpu_get = channel.gpu_get
          ∧ (try_claim_channel channel).1.gpfifo_entries = channel.gpfifo_entries)
    ∧ ((try_claim_channel channel).2 = false → (try_claim_channel channel).1 = channel) := by
  by_cases h : is_channel_available channel = true
  · have hcond := of_decide_eq_true h
    simp [try_claim_channel, h, hcond]
  · have hcond : ¬ ((channel.cpu_put + channel.current_pushes_count + 1)
        % channel.numGpFifoEntries ≠ channel.gpu_get) :=
      fun hc => h (decide_eq_true hc)
    simp [try_claim_channel, h, hcond]

/-- Witness for C1 at the concrete example channel. -/
theorem claim_succeeds_iff_space_witness :
    (try_claim_channel claim_example_channel).1.current_pushes_count
      = claim_example_channel.current_pushes_count + 1 :=
  ((claim_succeeds_iff_space claim_example_channel).2.1 (by decide)).1

/-! ## C8: channel health status -/

/-- C8: uvm_channel_get_status returns NV_OK iff the fault-notifier status
field is zero; when it is nonzero the result is NV_ERR_ECC_ERROR exactly
when ECC is enabled and the GPU's ECC error notifier is set at that
moment, and NV_ERR_RC_ERROR otherwise. -/
theorem channel_get_status_spec (v : channel_error_view) :
    (uvm_channel_get_status v = NV_STATUS.NV_OK ↔ v.notifier_status = 0)
    ∧ (v.notifier_status ≠ 0 →
        ((uvm_channel_get_status v = NV_STATUS.NV_ERR_ECC_ERROR ↔
           (v.ecc_enabled = true ∧ v.ecc_error_notifier = true))
         ∧ (¬(v.ecc_enabled = true ∧ v.ecc_error_notifier = true) →
             uvm_channel_get_status v = NV_STATUS.NV_ERR_RC_ERROR))) := by
  unfold uvm_channel_get_status
  split_ifs with h1 h2 <;>
    simp_all [Bool.and_eq_true]

/-- Witness for C8: a faulted channel with ECC enabled and the ECC
notifier set reports the ECC error. -/
theorem channel_get_status_spec_witness :
    uvm_channel_get_status
      { notifier_status := 1, ecc_enabled := true, ecc_error_notifier := true }
      = NV_STATUS.NV_ERR_ECC_ERROR :=
  ((channel_get_status_spec
      { notifier_status := 1, ecc_enabled := true, ecc_error_notifier := true }).2
    (by decide)).1.mpr ⟨rfl, rfl⟩

/-! ## C4: ending a push -/

/-- C4: with at least one outstanding claim, uvm_channel_end_push allocates
the tracking value `queued_value + 1` (strictly above every previously
allocated value, all of which are at most `queued_value`), writes the new
ring entry at index `cpu_put` with that value, the staged-region
descriptor and the bound push-info slot, leaves every other ring entry
unchanged, advances `cpu_put` by exactly one modulo N, decrements
`current_pushes_count` by exactly one, and issues the doorbell write with
the new put. -/
theorem end_push_spec (channel : uvm_channel_t)
    (push_info_index pushbuffer_offset push_size : Nat)
    (hclaims : 0 < channel.current_pushes_count) :
    (uvm_channel_end_push channel push_info_index pushbuffer_offset push_size).2.new_tracking_value
        = channel.queued_value + 1
    ∧ (∀ v, v ≤ channel.queued_value →
        v < (uvm_channel_end_push channel push_info_index pushbuffer_offset
              push_size).2.new_tracking_value)
    ∧ (uvm_channel_end_push channel push_info_index pushbuffer_offset push_size).1.gpfifo_entries
          channel.cpu_put
        = { tracking_semaphore_value := channel.queued_value + 1,
            pushbuffer_offset := pushbuffer_offset,
            pushbuffer_size := push_size,
            push_info := push_info_index }
    ∧ (∀ i, i ≠ channel.cpu_put →
        (uvm_channel_end_push channel push_info_index pushbuffer_offset
            push_size).1.gpfifo_entries i = channel.gpfifo_entries i)
    ∧ (uvm_channel_end_push channel push_info_index pushbuffer_offset push_size).1.cpu_put
        = (channel.cpu_put + 1) % channel.numGpFifoEntries
    ∧ (uvm_channel_end_push channel push_info_index pushbuffer_offset
          push_size).1.current_pushes_count + 1
        = channel.current_pushes_count
    ∧ (uvm_channel_end_push channel push_info_index pushbuffer_offset push_size).1.queued_value
        = channel.queued_value + 1
    ∧ (uvm_channel_end_push channel push_info_index pushbuffer_offset push_size).1.gpu_get
        = channel.gpu_get
    ∧ (uvm_channel_end_push channel push_info_index pushbuffer_offset
          push_size).2.doorbell_written = true
    ∧ (uvm_channel_end_push channel push_info_index pushbuffer_offset push_size).2.doorbell_put
        = (channel.cpu_put + 1) % channel.numGpFifoEntries
    ∧ (uvm_channel_end_push channel push_info_index pushbuffer_offset
          push_size).2.semaphore_payload
        = (channel.queued_value + 1) % 2 ^ 32 := by
  refine ⟨rfl, fun v hv => by simp [uvm_channel_end_push]; omega, ?_, ?_, rfl, ?_, rfl, rfl, rfl, rfl, rfl⟩
  · simp [uvm_channel_end_push]
  · intro i hi
    simp [uvm_channel_end_push, hi]
  · simp [uvm_channel_end_push]
    omega

/-- A channel state with one outstanding claim, ready for end-push. -/
def end_push_example_channel : uvm_channel_t :=
  { claim_example_channel with current_pushes_count := 1 }

/-- Witness for C4 at a concrete channel with one outstanding claim. -/
theorem end_push_spec_witness :
    (uvm_channel_end_push end_push_example_channel 2 5 7).2.new_tracking_value
      = end_push_example_channel.queued_value + 1 :=
  (end_push_spec end_push_example_channel 2 5 7 (by decide)).1

/-! ## C5: the sticky global fatal status -/

/-- A manager snapshot whose global fatal flag is already set while one of
its channels still has ring space. -/
def fatal_manager_example : manager_snapshot :=
  { global := { fatal_error := some NV_STATUS.NV_ERR_RC_ERROR },
    channel := claim_example_channel }

/-- C5 counterexample: with the sticky global fatal status set (here
NV_ERR_RC_ERROR), a claim attempt still succeeds, because
try_claim_channel consults only the ring cursors and never the global
error state; so it is not true that no claim attempt succeeds once a
fatal status exists. -/
theorem fatal_flag_claim_counterexample :
    uvm_global_get_status fatal_manager_example.global = NV_STATUS.NV_ERR_RC_ERROR
    ∧ (manager_claim_attempt fatal_manager_example).2 = true := by
  constructor
  · rfl
  · decide

/-- C5 amended: once the global fatal flag holds a non-OK status, it is
sticky (later reports do not change it), uvm_global_get_status and
uvm_channel_manager_check_errors observe that identical status on every
subsequent call without probing any channel; but claim attempts are not
gated on the fatal flag: try_claim_channel succeeds or fails purely by
ring availability. -/
theorem fatal_flag_sticky_amended (g : uvm_global_state) (s : NV_STATUS)
    (hs : g.fatal_error = some s) (hne : s ≠ NV_STATUS.NV_OK) :
    uvm_global_get_status g = s
    ∧ (∀ s2, uvm_global_set_fatal_error g s2 = g)
    ∧ (∀ channels, uvm_channel_manager_check_errors g channels = (s, g))
    ∧ (∀ channel, (try_claim_channel channel).2 = is_channel_available channel) := by
  have hget : uvm_global_get_status g = s := by
    simp [uvm_global_get_status, hs]
  refine ⟨hget, ?_, ?_, ?_⟩
  · intro s2
    simp [uvm_global_set_fatal_error, hs]
  · intro channels
    simp [uvm_channel_manager_check_errors, hget, hne]
  · intro channel
    by_cases h : is_channel_available channel = true <;>
      simp [try_claim_channel, h]

/-- Witness for the amended C5 claim at a concrete fatal state. -/
theorem fatal_flag_sticky_amended_witness :
    uvm_channel_manager_check_errors { fatal_error := some NV_STATUS.NV_ERR_RC_ERROR } []
      = (NV_STATUS.NV_ERR_RC_ERROR, { fatal_error := some NV_STATUS.NV_ERR_RC_ERROR }) :=
  (fatal_flag_sticky_amended { fatal_error := some NV_STATUS.NV_ERR_RC_ERROR }
    NV_STATUS.NV_ERR_RC_ERROR rfl (by decide)).2.2.1 []

/-! ## C2 / C7: progress reclamation -/

/-- The `k` ring entries starting at `gpu_get`, in ring order. -/
def pendingListAux (numEntries : Nat) (ring : Nat → uvm_gpfifo_entry_t) :
    Nat → Nat → List uvm_gpfifo_entry_t
  | _, 0 => []
  | gpu_get, k + 1 =>
    ring gpu_get :: pendingListAux numEntries ring ((gpu_get + 1) % numEntries) k

/-- The pending entries of a channel, oldest (at `gpu_get`) first. -/
def pending_entries (channel : uvm_channel_t) : List uvm_gpfifo_entry_t :=
  pendingListAux channel.numGpFifoEntries channel.gpfifo_entries channel.gpu_get
    (pending_count channel)

/-- The entries the retirement walk may retire, before the budget cut:
in completed mode the walk stops at the first entry whose tracking value
exceeds the completed value, in force mode nothing stops it. -/
def retire_candidates (mode : uvm_channel_update_mode_t) (completed_value : Nat)
    (l : List uvm_gpfifo_entry_t) : List uvm_gpfifo_entry_t :=
  match mode with
  | UVM_CHANNEL_UPDATE_MODE_COMPLETED =>
    l.takeWhile (fun e => decide (e.tracking_semaphore_value ≤ completed_value))
  | UVM_CHANNEL_UPDATE_MODE_FORCE_ALL => l

theorem pendingListAux_length (numEntries : Nat) (ring : Nat → uvm_gpfifo_entry_t) :
    ∀ k gpu_get, (pendingListAux numEntries ring gpu_get k).length = k := by
  intro k
  induction k with
  | zero => intro g; rfl
  | succ k ih => intro g; simp [pendingListAux, ih]

theorem retire_candidates_nil (mode : uvm_channel_update_mode_t) (cv : Nat) :
    retire_candidates mode cv [] = [] := by
  cases mode <;> rfl

theorem retire_candidates_length_le (mode : uvm_channel_update_mode_t) (cv : Nat)
    (l : List uvm_gpfifo_entry_t) : (retire_candidates mode cv l).length ≤ l.length := by
  cases mode with
  | UVM_CHANNEL_UPDATE_MODE_COMPLETED =>
    exact List.Sublist.length_le (List.takeWhile_sublist _)
  | UVM_CHANNEL_UPDATE_MODE_FORCE_ALL => exact le_refl _

/-- The retirement loop computes the budget-limited cut of the retire
candidates and advances `gpu_get` by the number retired. -/
theorem retireLoop_eq (numEntries : Nat) (ring : Nat → uvm_gpfifo_entry_t)
    (mode : uvm_channel_update_mode_t) (completed_value cpu_put : Nat) :
    ∀ (fuel gpu_get : Nat), gpu_get < numEntries → cpu_put < numEntries →
    retireLoop numEntries ring mode completed_value cpu_put gpu_get fuel =
      ((gpu_get + (List.take fuel (retire_candidates mode completed_value
          (pendingListAux numEntries ring gpu_get
            (pendingLen numEntries gpu_get cpu_put)))).length) % numEntries,
       List.take fuel (retire_candidates mode completed_value
          (pendingListAux numEntries ring gpu_get
            (pendingLen numEntries gpu_get cpu_put)))) := by
  intro fuel
  induction fuel with
  | zero =>
    intro g hg hp
    simp [retireLoop, Nat.mod_eq_of_lt hg]
  | succ f ih =>
    intro g hg hp
    by_cases hgp : g = cpu_put
    · have h0 : pendingLen numEntries g cpu_put = 0 :=
        (pendingLen_eq_zero_iff numEntries g cpu_put hg hp).mpr hgp
      subst hgp
      rw [h0]
      simp [retireLoop, pendingListAux, retire_candidates_nil,
        Nat.mod_eq_of_lt hg]
    · have hne0 : pendingLen numEntries g cpu_put ≠ 0 :=
        fun h => hgp ((pendingLen_eq_zero_iff numEntries g cpu_put hg hp).mp h)
      obtain ⟨k, hk⟩ : ∃ k, pendingLen numEntries g cpu_put = k + 1 :=
        ⟨pendingLen numEntries g cpu_put - 1, by omega⟩
      have hNpos : 0 < numEntries := by omega
      have hg1 : (g + 1) % numEntries < numEntries := Nat.mod_lt _ hNpos
      have htail : pendingLen numEntries ((g + 1) % numEntries) cpu_put = k := by
        rw [pendingLen_succ_get numEntries g cpu_put hg hp hgp, hk]
        omega
      have hcons : pendingListAux numEntries ring g (pendingLen numEntries g cpu_put)
          = ring g :: pendingListAux numEntries ring ((g + 1) % numEntries) k := by
        rw [hk]; rfl
      have hih := ih ((g + 1) % numEntries) hg1 hp
      rw [htail] at hih
      cases mode with
      | UVM_CHANNEL_UPDATE_MODE_COMPLETED =>
        by_cases hbreak :
            completed_value < (ring g).tracking_semaphore_value
        · have hcand : retire_candidates UVM_CHANNEL_UPDATE_MODE_COMPLETED completed_value
              (pendingListAux numEntries ring g (pendingLen numEntries g cpu_put)) = [] := by
            rw [hcons]
            simp [retire_candidates, List.takeWhile_cons]
            omega
          rw [hcand]
          simp [retireLoop, hgp, hbreak, Nat.mod_eq_of_lt hg]
        · have hle : (ring g).tracking_semaphore_value ≤ completed_value := by omega
          have hcand : retire_candidates UVM_CHANNEL_UPDATE_MODE_COMPLETED completed_value
              (pendingListAux numEntries ring g (pendingLen numEntries g cpu_put))
              = ring g :: retire_candidates UVM_CHANNEL_UPDATE_MODE_COMPLETED completed_value
                  (pendingListAux numEntries ring ((g + 1) % numEntries) k) := by
            rw [hcons]
            simp [retire_candidates, List.takeWhile_cons, hle]
          rw [hcand]
          simp only [retireLoop, hgp, if_false, ite_false, hbreak, and_false,
            if_neg (by simp [hbreak] : ¬(UVM_CHANNEL_UPDATE_MODE_COMPLETED
              = UVM_CHANNEL_UPDATE_MODE_COMPLETED ∧
              completed_value < (ring g).tracking_semaphore_value)),
            if_neg hgp, hih, List.take_succ_cons, List.length_cons]
          rw [Prod.mk.injEq]
          refine ⟨?_, rfl⟩
          rw [Nat.mod_add_mod]
          congr 1
          omega
      | UVM_CHANNEL_UPDATE_MODE_FORCE_ALL =>
        have hcand : retire_candidates UVM_CHANNEL_UPDATE_MODE_FORCE_ALL completed_value
            (pendingListAux numEntries ring g (pendingLen numEntries g cpu_put))
            = ring g :: retire_candidates UVM_CHANNEL_UPDATE_MODE_FORCE_ALL completed_value
                (pendingListAux numEntries ring ((g + 1) % numEntries) k) := by
          rw [hcons]; rfl
        rw [hcand]
        simp only [retireLoop, if_neg hgp,
          if_neg (by simp : ¬(UVM_CHANNEL_UPDATE_MODE_FORCE_ALL
            = UVM_CHANNEL_UPDATE_MODE_COMPLETED ∧
            completed_value < (ring g).tracking_semaphore_value)),
          hih, List.take_succ_cons, List.length_cons]
        rw [Prod.mk.injEq]
        refine ⟨?_, rfl⟩
        rw [Nat.mod_add_mod]
        congr 1
        omega

/-- The channel of spec scenario 2: ten pending submissions (tracking
values 1..10) whose completed counter has advanced to 10. -/
def progress_example_channel : uvm_channel_t :=
  { numGpFifoEntries := 16, cpu_put := 10, gpu_get := 0, current_pushes_count := 0,
    gpfifo_entries := fun i =>
      { tracking_semaphore_value := i + 1, pushbuffer_offset := 0,
        pushbuffer_size := 0, push_info := i },
    queued_value := 10, available_push_infos := [] }

/-- C2: progress reclamation walks from `gpu_get` toward `cpu_put`
retiring at most the budget many entries - in completed mode the longest
prefix whose tracking values do not exceed the freshly read completed
value, in force mode every remaining entry unconditionally; each retired
entry has its push_info returned to availability, `gpu_get` advances
modulo N by the number retired, and the call returns the number of
entries still pending.  With ten pending completed entries, budget 8
retires exactly 8 and returns 2, and a follow-up call retires the
remaining 2. -/
theorem update_progress_with_max_spec (channel : uvm_channel_t)
    (max_to_complete : Nat) (mode : uvm_channel_update_mode_t) (completed_value : Nat)
    (hput : channel.cpu_put < channel.numGpFifoEntries)
    (hget : channel.gpu_get < channel.numGpFifoEntries) :
    (uvm_channel_update_progress_with_max channel max_to_complete mode
          completed_value).2.2
        = List.take max_to_complete
            (retire_candidates mode completed_value (pending_entries channel))
    ∧ (uvm_channel_update_progress_with_max channel max_to_complete mode
          completed_value).2.2.length ≤ max_to_complete
    ∧ (uvm_channel_update_progress_with_max channel max_to_complete mode
          completed_value).1.gpu_get
        = (channel.gpu_get + (uvm_channel_update_progress_with_max channel
            max_to_complete mode completed_value).2.2.length) % channel.numGpFifoEntries
    ∧ (uvm_channel_update_progress_with_max channel max_to_complete mode
          completed_value).2.1
        = pending_count (uvm_channel_update_progress_with_max channel max_to_complete
            mode completed_value).1
    ∧ pending_count (uvm_channel_update_progress_with_max channel max_to_complete
          mode completed_value).1
        = pending_count channel - (uvm_channel_update_progress_with_max channel
            max_to_complete mode completed_value).2.2.length
    ∧ (mode = UVM_CHANNEL_UPDATE_MODE_FORCE_ALL →
        (uvm_channel_update_progress_with_max channel max_to_complete mode
            completed_value).2.2.length = min max_to_complete (pending_count channel))
    ∧ (uvm_channel_update_progress_with_max channel max_to_complete mode
          completed_value).1.available_push_infos
        = channel.available_push_infos
            ++ ((uvm_channel_update_progress_with_max channel max_to_complete mode
                  completed_value).2.2.map (fun e => e.push_info))
    ∧ (uvm_channel_update_progress_with_max channel max_to_complete mode
          completed_value).1.cpu_put = channel.cpu_put
    ∧ (uvm_channel_update_progress_with_max channel max_to_complete mode
          completed_value).1.current_pushes_count = channel.current_pushes_count
    ∧ (uvm_channel_update_progress_with_max channel max_to_complete mode
          completed_value).1.gpfifo_entries = channel.gpfifo_entries
    ∧ ((uvm_channel_update_progress progress_example_channel 10).2.2.length = 8
        ∧ (uvm_channel_update_progress progress_example_channel 10).2.1 = 2
        ∧ (uvm_channel_update_progress
            (uvm_channel_update_progress progress_example_channel 10).1 10).2.2.length = 2
        ∧ (uvm_channel_update_progress
            (uvm_channel_update_progress progress_example_channel 10).1 10).2.1 = 0) := by
  have hkey := retireLoop_eq channel.numGpFifoEntries channel.gpfifo_entries mode
    completed_value channel.cpu_put max_to_complete channel.gpu_get hget hput
  have hpe : pendingListAux channel.numGpFifoEntries channel.gpfifo_entries
      channel.gpu_get (pendingLen channel.numGpFifoEntries channel.gpu_get channel.cpu_put)
      = pending_entries channel := rfl
  rw [hpe] at hkey
  have hlen_le : (List.take max_to_complete (retire_candidates mode completed_value
      (pending_entries channel))).length ≤ pending_count channel := by
    calc (List.take max_to_complete (retire_candidates mode completed_value
            (pending_entries channel))).length
        ≤ (retire_candidates mode completed_value (pending_entries channel)).length :=
          List.Sublist.length_le (List.take_sublist _ _)
      _ ≤ (pending_entries channel).length := retire_candidates_length_le _ _ _
      _ = pending_count channel := pendingListAux_length _ _ _ _
  have hadd := pendingLen_add_get channel.numGpFifoEntries channel.gpu_get
    channel.cpu_put hget hput
    (List.take max_to_complete (retire_candidates mode completed_value
      (pending_entries channel))).length hlen_le
  refine ⟨?_, ?_, ?_, ?_, ?_, ?_, ?_, ?_, ?_, ?_, ?_⟩
  · simp only [uvm_channel_update_progress_with_max, hkey]
  · simp only [uvm_channel_update_progress_with_max, hkey]
    exact List.length_take_le _ _
  · simp only [uvm_channel_update_progress_with_max, hkey]
  · simp only [uvm_channel_update_progress_with_max, hkey]
    rfl
  · simp only [uvm_channel_update_progress_with_max, hkey, pending_count]
    exact hadd
  · intro hmode
    subst hmode
    simp only [uvm_channel_update_progress_with_max, hkey, retire_candidates,
      List.length_take]
    congr 1
    exact pendingListAux_length _ _ _ _
  · simp only [uvm_channel_update_progress_with_max, hkey]
  · rfl
  · rfl
  · rfl
  · exact ⟨by decide, by decide, by decide, by decide⟩

/-- Witness for C2 at the concrete scenario channel. -/
theorem update_progress_with_max_spec_witness :
    (uvm_channel_update_progress_with_max progress_example_channel 8
        UVM_CHANNEL_UPDATE_MODE_COMPLETED 10).2.2
      = List.take 8 (retire_candidates UVM_CHANNEL_UPDATE_MODE_COMPLETED 10
          (pending_entries progress_example_channel)) :=
  (update_progress_with_max_spec progress_example_channel 8
    UVM_CHANNEL_UPDATE_MODE_COMPLETED 10 (by decide) (by decide)).1

theorem take_eq_take_own_length {α : Type _} (l : List α) (n : Nat) :
    List.take n l = List.take (List.take n l).length l := by
  induction l generalizing n with
  | nil => simp
  | cons a t ih =>
    cases n with
    | zero => simp
    | succ m =>
      simp only [List.take_succ_cons, List.length_cons]
      exact congrArg (List.cons a) (ih m)

theorem take_takeWhile_eq_take {α : Type _} (p : α → Bool) (l : List α) (n : Nat) :
    List.take n (l.takeWhile p) = List.take (List.take n (l.takeWhile p)).length l := by
  induction l generalizing n with
  | nil => simp
  | cons a t ih =>
    by_cases hp : p a
    · cases n with
      | zero => simp
      | succ m =>
        simp only [List.takeWhile_cons, hp, if_true, List.take_succ_cons,
          List.length_cons]
        exact congrArg (List.cons a) (ih m)
    · simp [List.takeWhile_cons, hp]

theorem retire_candidates_take_eq (mode : uvm_channel_update_mode_t) (cv : Nat)
    (l : List uvm_gpfifo_entry_t) (n : Nat) :
    List.take n (retire_candidates mode cv l)
      = List.take (List.take n (retire_candidates mode cv l)).length l := by
  cases mode with
  | UVM_CHANNEL_UPDATE_MODE_COMPLETED => exact take_takeWhile_eq_take _ l n
  | UVM_CHANNEL_UPDATE_MODE_FORCE_ALL => exact take_eq_take_own_length l n

/-- C7: entries retire strictly in submission order: the retired entries
form a prefix of the pending entries taken from `gpu_get` in ring order,
so when the pending tracking values are strictly increasing (the ring
invariant), the retired values are strictly increasing and every retired
entry has a strictly smaller tracking value than every entry left
pending. -/
theorem retire_fifo_order_spec (channel : uvm_channel_t)
    (max_to_complete : Nat) (mode : uvm_channel_update_mode_t) (completed_value : Nat)
    (hput : channel.cpu_put < channel.numGpFifoEntries)
    (hget : channel.gpu_get < channel.numGpFifoEntries)
    (hsorted : List.Pairwise
      (fun a b => a.tracking_semaphore_value < b.tracking_semaphore_value)
      (pending_entries channel)) :
    (uvm_channel_update_progress_with_max channel max_to_complete mode
          completed_value).2.2
        = List.take ((uvm_channel_update_progress_with_max channel max_to_complete
            mode completed_value).2.2.length) (pending_entries channel)
    ∧ List.Pairwise (fun a b => a.tracking_semaphore_value < b.tracking_semaphore_value)
        (uvm_channel_update_progress_with_max channel max_to_complete mode
          completed_value).2.2
    ∧ ∀ a ∈ (uvm_channel_update_progress_with_max channel max_to_complete mode
          completed_value).2.2,
        ∀ b ∈ List.drop ((uvm_channel_update_progress_with_max channel max_to_complete
            mode completed_value).2.2.length) (pending_entries channel),
          a.tracking_semaphore_value < b.tracking_semaphore_value := by
  have hkey := retireLoop_eq channel.numGpFifoEntries channel.gpfifo_entries mode
    completed_value channel.cpu_put max_to_complete channel.gpu_get hget hput
  have hpe : pendingListAux channel.numGpFifoEntries channel.gpfifo_entries
      channel.gpu_get (pendingLen channel.numGpFifoEntries channel.gpu_get channel.cpu_put)
      = pending_entries channel := rfl
  rw [hpe] at hkey
  have hret : (uvm_channel_update_progress_with_max channel max_to_complete mode
      completed_value).2.2
      = List.take max_to_complete (retire_candidates mode completed_value
          (pending_entries channel)) := by
    simp only [uvm_channel_update_progress_with_max, hkey]
  have hpre : (uvm_channel_update_progress_with_max channel max_to_complete mode
      completed_value).2.2
      = List.take ((uvm_channel_update_progress_with_max channel max_to_complete mode
          completed_value).2.2.length) (pending_entries channel) := by
    rw [hret]
    exact retire_candidates_take_eq mode completed_value (pending_entries channel)
      max_to_complete
  refine ⟨hpre, ?_, ?_⟩
  · rw [hpre]
    exact hsorted.sublist (List.take_sublist _ _)
  · have hsplit := List.take_append_drop
      ((uvm_channel_update_progress_with_max channel max_to_complete mode
        completed_value).2.2.length) (pending_entries channel)
    rw [← hsplit] at hsorted
    have hcross := (List.pairwise_append.mp hsorted).2.2
    intro a ha b hb
    refine hcross a ?_ b hb
    rw [← hpre]
    exact ha

/-- Witness for C7 at the concrete scenario channel. -/
theorem retire_fifo_order_spec_witness :
    List.Pairwise (fun a b => a.tracking_semaphore_value < b.tracking_semaphore_value)
      (uvm_channel_update_progress_with_max progress_example_channel 8
        UVM_CHANNEL_UPDATE_MODE_COMPLETED 10).2.2 :=
  (retire_fifo_order_spec progress_example_channel 8
    UVM_CHANNEL_UPDATE_MODE_COMPLETED 10 (by decide) (by decide) (by decide)).2.1

/-! ## C3: the ring occupancy invariant -/

/-- Cursor well-formedness: both cursors lie inside the ring (which in
particular forces a positive capacity). -/
def channel_wf (channel : uvm_channel_t) : Prop :=
  channel.cpu_put < channel.numGpFifoEntries
    ∧ channel.gpu_get < channel.numGpFifoEntries

/-- The occupancy invariant: claimed-but-unsubmitted slots plus pending
ring entries never exceed N - 1 (one slot is permanently lost to the
full/empty disambiguation). -/
def channel_inv (channel : uvm_channel_t) : Prop :=
  channel_wf channel
    ∧ channel.current_pushes_count + pending_count channel
        ≤ channel.numGpFifoEntries - 1

/-- C3: the occupancy invariant
`current_pushes_count + pending ≤ N - 1` is preserved by a claim attempt,
by ending a push (which requires an outstanding claim) and by progress
reclamation with any budget and mode; and `cpu_put = gpu_get` always
means an empty ring, never a full one. -/
theorem ring_occupancy_invariant (channel : uvm_channel_t)
    (hinv : channel_inv channel) :
    channel_inv (try_claim_channel channel).1
    ∧ (0 < channel.current_pushes_count →
        ∀ push_info_index pushbuffer_offset push_size,
          channel_inv (uvm_channel_end_push channel push_info_index
            pushbuffer_offset push_size).1)
    ∧ (∀ max_to_complete mode completed_value,
        channel_inv (uvm_channel_update_progress_with_max channel max_to_complete
          mode completed_value).1)
    ∧ (channel.cpu_put = channel.gpu_get → pending_count channel = 0) := by
  obtain ⟨⟨hp, hg⟩, hocc⟩ := hinv
  have hN : 0 < channel.numGpFifoEntries := by omega
  unfold pending_count at hocc
  refine ⟨?_, ?_, ?_, ?_⟩
  · by_cases h : is_channel_available channel = true
    · have hcond := of_decide_eq_true h
      have hroom := (available_iff_room channel.numGpFifoEntries channel.gpu_get
        channel.cpu_put channel.current_pushes_count hg hp (by omega)).mp hcond
      simp only [try_claim_channel, h, if_true]
      refine ⟨⟨hp, hg⟩, ?_⟩
      show channel.current_pushes_count + 1
          + pendingLen channel.numGpFifoEntries channel.gpu_get channel.cpu_put
        ≤ channel.numGpFifoEntries - 1
      omega
    · simp only [try_claim_channel, h]
      refine ⟨⟨hp, hg⟩, ?_⟩
      show channel.current_pushes_count
          + pendingLen channel.numGpFifoEntries channel.gpu_get channel.cpu_put
        ≤ channel.numGpFifoEntries - 1
      omega
  · intro hc push_info_index pushbuffer_offset push_size
    have hroom : pendingLen channel.numGpFifoEntries channel.gpu_get
        channel.cpu_put + 1 < channel.numGpFifoEntries := by omega
    have hput1 : (channel.cpu_put + 1) % channel.numGpFifoEntries
        < channel.numGpFifoEntries := Nat.mod_lt _ hN
    have hpend := pendingLen_succ_put channel.numGpFifoEntries channel.gpu_get
      channel.cpu_put hg hp hroom
    refine ⟨⟨?_, ?_⟩, ?_⟩
    · exact hput1
    · exact hg
    · unfold pending_count
      simp only [uvm_channel_end_push]
      rw [hpend]
      omega
  · intro max_to_complete mode completed_value
    have hkey := retireLoop_eq channel.numGpFifoEntries channel.gpfifo_entries mode
      completed_value channel.cpu_put max_to_complete channel.gpu_get hg hp
    have hlen_le : (List.take max_to_complete (retire_candidates mode completed_value
        (pendingListAux channel.numGpFifoEntries channel.gpfifo_entries channel.gpu_get
          (pendingLen channel.numGpFifoEntries channel.gpu_get channel.cpu_put)))).length
        ≤ pendingLen channel.numGpFifoEntries channel.gpu_get channel.cpu_put := by
      calc (List.take max_to_complete (retire_candidates mode completed_value
              (pendingListAux channel.numGpFifoEntries channel.gpfifo_entries
                channel.gpu_get (pendingLen channel.numGpFifoEntries channel.gpu_get
                  channel.cpu_put)))).length
          ≤ (retire_candidates mode completed_value
              (pendingListAux channel.numGpFifoEntries channel.gpfifo_entries
                channel.gpu_get (pendingLen channel.numGpFifoEntries channel.gpu_get
                  channel.cpu_put))).length :=
            List.Sublist.length_le (List.take_sublist _ _)
        _ ≤ (pendingListAux channel.numGpFifoEntries channel.gpfifo_entries
              channel.gpu_get (pendingLen channel.numGpFifoEntries channel.gpu_get
                channel.cpu_put)).length := retire_candidates_length_le _ _ _
        _ = pendingLen channel.numGpFifoEntries channel.gpu_get channel.cpu_put :=
            pendingListAux_length _ _ _ _
    have hpend := pendingLen_add_get channel.numGpFifoEntries channel.gpu_get
      channel.cpu_put hg hp _ hlen_le
    refine ⟨⟨?_, ?_⟩, ?_⟩
    · exact hp
    · simp only [uvm_channel_update_progress_with_max, hkey]
      exact Nat.mod_lt _ hN
    · unfold pending_count
      simp only [uvm_channel_update_progress_with_max, hkey]
      rw [hpend]
      omega
  · intro h
    unfold pending_count pendingLen
    rw [h]
    simp

/-- Witness for C3 at the concrete example channel. -/
theorem ring_occupancy_invariant_witness :
    channel_inv (try_claim_channel claim_example_channel).1 :=
  (ring_occupancy_invariant claim_example_channel
    ⟨⟨by decide, by decide⟩, by decide⟩).1

/-! ## C6 / C9 / C10: copy-engine selection -/

theorem i32diff_eq (a b : Nat) (ha : a < 2 ^ 31) (hb : b < 2 ^ 31) :
    i32diff a b = (a : Int) - b := by
  simp only [i32diff]
  have h32a : a % 2 ^ 32 = a := Nat.mod_eq_of_lt (by omega)
  have h32b : b % 2 ^ 32 = b := Nat.mod_eq_of_lt (by omega)
  rw [h32a, h32b]
  rcases le_or_lt b a with h | h
  · have hd : (a + 2 ^ 32 - b) % 2 ^ 32 = a - b := by
      have he : a + 2 ^ 32 - b = (a - b) + 2 ^ 32 := by omega
      rw [he, Nat.add_mod_right]
      exact Nat.mod_eq_of_lt (by omega)
    rw [hd]
    split_ifs with h2 <;> omega
  · have hd : (a + 2 ^ 32 - b) % 2 ^ 32 = a + 2 ^ 32 - b :=
      Nat.mod_eq_of_lt (by omega)
    rw [hd]
    split_ifs with h2 <;> omega

/-- The ranking key of one engine under the comparator chain of
compare_ce_for_channel_type: the comparator prefers the engine whose key
is lexicographically smaller. -/
def ce_rank_key (caps : Nat → UvmGpuCopyEngineCaps) (usage_count : Nat → Nat)
    (type : uvm_channel_type_t) (i : Nat) : Int × Int × Int × Int × Int :=
  match type with
  | UVM_CHANNEL_TYPE_CPU_TO_GPU =>
    (-(b2i (caps i).sysmemRead), b2i (caps i).nvlinkP2p, (usage_count i : Int),
      b2i (caps i).shared, (i : Int))
  | UVM_CHANNEL_TYPE_GPU_TO_CPU =>
    (-(b2i (caps i).sysmemWrite), b2i (caps i).nvlinkP2p, (usage_count i : Int),
      b2i (caps i).shared, (i : Int))
  | UVM_CHANNEL_TYPE_GPU_INTERNAL =>
    (-(hweight32 (caps i).cePceMask : Int), b2i (caps i).nvlinkP2p,
      (usage_count i : Int), b2i (caps i).shared, (i : Int))
  | UVM_CHANNEL_TYPE_MEMOPS =>
    (0, 0, (usage_count i : Int), b2i (caps i).shared, (i : Int))
  | UVM_CHANNEL_TYPE_GPU_TO_GPU =>
    (-(b2i (caps i).nvlinkP2p),
      if (caps i).nvlinkP2p then -(hweight32 (caps i).cePceMask : Int) else 0,
      (usage_count i : Int), b2i (caps i).shared, (i : Int))
  | UVM_CHANNEL_TYPE_ANY => (0, 0, 0, 0, (i : Int))

/-- Lexicographic strict order on five-component keys. -/
def key5Lt (a b : Int × Int × Int × Int × Int) : Prop :=
  a.1 < b.1 ∨ (a.1 = b.1 ∧ (a.2.1 < b.2.1 ∨ (a.2.1 = b.2.1 ∧
    (a.2.2.1 < b.2.2.1 ∨ (a.2.2.1 = b.2.2.1 ∧
      (a.2.2.2.1 < b.2.2.2.1 ∨ (a.2.2.2.1 = b.2.2.2.1 ∧
        a.2.2.2.2 < b.2.2.2.2)))))))

theorem key5Lt_trans {a b c : Int × Int × Int × Int × Int}
    (hab : key5Lt a b) (hbc : key5Lt b c) : key5Lt a c := by
  obtain ⟨a1, a2, a3, a4, a5⟩ := a
  obtain ⟨b1, b2, b3, b4, b5⟩ := b
  obtain ⟨c1, c2, c3, c4, c5⟩ := c
  simp only [key5Lt] at hab hbc ⊢
  omega

theorem key5Lt_or_gt {a b : Int × Int × Int × Int × Int} (h : a ≠ b) :
    key5Lt a b ∨ key5Lt b a := by
  obtain ⟨a1, a2, a3, a4, a5⟩ := a
  obtain ⟨b1, b2, b3, b4, b5⟩ := b
  simp only [ne_eq, Prod.mk.injEq] at h
  simp only [key5Lt]
  omega

theorem ce_rank_key_last (caps : Nat → UvmGpuCopyEngineCaps)
    (usage_count : Nat → Nat) (type : uvm_channel_type_t) (i : Nat) :
    (ce_rank_key caps usage_count type i).2.2.2.2 = (i : Int) := by
  cases type <;> rfl

theorem ce_rank_key_ne (caps : Nat → UvmGpuCopyEngineCaps)
    (usage_count : Nat → Nat) (type : uvm_channel_type_t) {i j : Nat}
    (h : i ≠ j) :
    ce_rank_key caps usage_count type i ≠ ce_rank_key caps usage_count type j := by
  intro he
  have h5 := congrArg (fun x : Int × Int × Int × Int × Int => x.2.2.2.2) he
  simp only [ce_rank_key_last] at h5
  exact h (by exact_mod_cast h5)

/-- One stage of the comparator chain: if the stage discriminates
(condition `c`), its value decides the sign; otherwise the keys of this
stage are equal and the rest of the chain decides. -/
theorem stage_iff {c : Prop} [Decidable c] {v rest ka kb : Int} {tail : Prop}
    (hcond : c ↔ ka ≠ kb) (hv : c → (v < 0 ↔ ka < kb))
    (hrest : ¬c → (rest < 0 ↔ tail)) :
    ((if c then v else rest) < 0) ↔ (ka < kb ∨ (ka = kb ∧ tail)) := by
  split_ifs with h
  · rw [hv h]
    have hne := hcond.mp h
    constructor
    · exact Or.inl
    · rintro (h2 | ⟨h2, _⟩)
      · exact h2
      · exact absurd h2 hne
  · have heq : ka = kb := by
      by_contra hne
      exact h (hcond.mpr hne)
    rw [hrest h]
    constructor
    · intro ht2
      exact Or.inr ⟨heq, ht2⟩
    · rintro (h2 | ⟨_, ht2⟩)
      · omega
      · exact ht2

theorem bool_ne_iff_b2i_ne (x y : Bool) : x ≠ y ↔ b2i x ≠ b2i y := by
  cases x <;> cases y <;> simp [b2i]

theorem bool_ne_iff_b2i_neg_ne (x y : Bool) : x ≠ y ↔ -(b2i x) ≠ -(b2i y) := by
  cases x <;> cases y <;> simp [b2i]

/-- The default-order tail computes the lexicographic order on
(usage, shared, index). -/
theorem default_order_lt_iff (caps : Nat → UvmGpuCopyEngineCaps)
    (usage_count : Nat → Nat) (i j : Nat)
    (hui : usage_count i < 2 ^ 31) (huj : usage_count j < 2 ^ 31)
    (hii : i < 2 ^ 31) (hjj : j < 2 ^ 31) :
    compare_ce_default_order caps usage_count i j < 0 ↔
      ((usage_count i : Int) < (usage_count j : Int) ∨
        ((usage_count i : Int) = (usage_count j : Int) ∧
          (b2i (caps i).shared < b2i (caps j).shared ∨
            (b2i (caps i).shared = b2i (caps j).shared ∧ (i : Int) < (j : Int))))) := by
  unfold compare_ce_default_order
  rw [i32diff_eq (usage_count i) (usage_count j) hui huj, i32diff_eq i j hii hjj]
  refine stage_iff ?_ ?_ ?_
  · rw [ne_eq, ne_eq, Nat.cast_inj]
  · intro _
    omega
  · intro _
    refine stage_iff ?_ ?_ ?_
    · exact bool_ne_iff_b2i_ne _ _
    · intro _
      omega
    · intro _
      omega

/-- The comparator computes exactly the lexicographic order on the
ranking keys, on the range where the NvU32 subtractions cannot wrap. -/
theorem compare_lt_iff_keyLt (caps : Nat → UvmGpuCopyEngineCaps)
    (usage_count : Nat → Nat) (type : uvm_channel_type_t) (i j : Nat)
    (ht : type ≠ UVM_CHANNEL_TYPE_ANY)
    (hui : usage_count i < 2 ^ 31) (huj : usage_count j < 2 ^ 31)
    (hii : i < 2 ^ 31) (hjj : j < 2 ^ 31) :
    compare_ce_for_channel_type caps type i j usage_count < 0 ↔
      key5Lt (ce_rank_key caps usage_count type i)
        (ce_rank_key caps usage_count type j) := by
  have hdefault := default_order_lt_iff caps usage_count i j hui huj hii hjj
  cases type with
  | UVM_CHANNEL_TYPE_ANY => exact absurd rfl ht
  | UVM_CHANNEL_TYPE_CPU_TO_GPU =>
    have hbig : compare_ce_for_channel_type caps UVM_CHANNEL_TYPE_CPU_TO_GPU i j
        usage_count < 0 ↔
        (-(b2i (caps i).sysmemRead) < -(b2i (caps j).sysmemRead) ∨
          (-(b2i (caps i).sysmemRead) = -(b2i (caps j).sysmemRead) ∧
            (b2i (caps i).nvlinkP2p < b2i (caps j).nvlinkP2p ∨
              (b2i (caps i).nvlinkP2p = b2i (caps j).nvlinkP2p ∧
                ((usage_count i : Int) < (usage_count j : Int) ∨
                  ((usage_count i : Int) = (usage_count j : Int) ∧
                    (b2i (caps i).shared < b2i (caps j).shared ∨
                      (b2i (caps i).shared = b2i (caps j).shared ∧
                        (i : Int) < (j : Int))))))))) := by
      simp only [compare_ce_for_channel_type]
      refine stage_iff ?_ ?_ ?_
      · exact bool_ne_iff_b2i_neg_ne _ _
      · intro _
        omega
      · intro _
        refine stage_iff ?_ ?_ ?_
        · exact bool_ne_iff_b2i_ne _ _
        · intro _
          omega
        · intro _
          exact hdefault
    exact hbig.trans (by simp [key5Lt, ce_rank_key])
  | UVM_CHANNEL_TYPE_GPU_TO_CPU =>
    have hbig : compare_ce_for_channel_type caps UVM_CHANNEL_TYPE_GPU_TO_CPU i j
        usage_count < 0 ↔
        (-(b2i (caps i).sysmemWrite) < -(b2i (caps j).sysmemWrite) ∨
          (-(b2i (caps i).sysmemWrite) = -(b2i (caps j).sysmemWrite) ∧
            (b2i (caps i).nvlinkP2p < b2i (caps j).nvlinkP2p ∨
              (b2i (caps i).nvlinkP2p = b2i (caps j).nvlinkP2p ∧
                ((usage_count i : Int) < (usage_count j : Int) ∨
                  ((usage_count i : Int) = (usage_count j : Int) ∧
                    (b2i (caps i).shared < b2i (caps j).shared ∨
                      (b2i (caps i).shared = b2i (caps j).shared ∧
                        (i : Int) < (j : Int))))))))) := by
      simp only [compare_ce_for_channel_type]
      refine stage_iff ?_ ?_ ?_
      · exact bool_ne_iff_b2i_neg_ne _ _
      · intro _
        omega
      · intro _
        refine stage_iff ?_ ?_ ?_
        · exact bool_ne_iff_b2i_ne _ _
        · intro _
          omega
        · intro _
          exact hdefault
    exact hbig.trans (by simp [key5Lt, ce_rank_key])
  | UVM_CHANNEL_TYPE_GPU_INTERNAL =>
    have hbig : compare_ce_for_channel_type caps UVM_CHANNEL_TYPE_GPU_INTERNAL i j
        usage_count < 0 ↔
        (-(hweight32 (caps i).cePceMask : Int) < -(hweight32 (caps j).cePceMask : Int) ∨
          (-(hweight32 (caps i).cePceMask : Int) = -(hweight32 (caps j).cePceMask : Int) ∧
            (b2i (caps i).nvlinkP2p < b2i (caps j).nvlinkP2p ∨
              (b2i (caps i).nvlinkP2p = b2i (caps j).nvlinkP2p ∧
                ((usage_count i : Int) < (usage_count j : Int) ∨
                  ((usage_count i : Int) = (usage_count j : Int) ∧
                    (b2i (caps i).shared < b2i (caps j).shared ∨
                      (b2i (caps i).shared = b2i (caps j).shared ∧
                        (i : Int) < (j : Int))))))))) := by
      simp only [compare_ce_for_channel_type]
      refine stage_iff ?_ ?_ ?_
      · constructor
        · intro h
          omega
        · intro h
          omega
      · intro _
        omega
      · intro _
        refine stage_iff ?_ ?_ ?_
        · exact bool_ne_iff_b2i_ne _ _
        · intro _
          omega
        · intro _
          exact hdefault
    exact hbig.trans (by simp [key5Lt, ce_rank_key])
  | UVM_CHANNEL_TYPE_MEMOPS =>
    have hbig : compare_ce_for_channel_type caps UVM_CHANNEL_TYPE_MEMOPS i j
        usage_count < 0 ↔
        ((usage_count i : Int) < (usage_count j : Int) ∨
          ((usage_count i : Int) = (usage_count j : Int) ∧
            (b2i (caps i).shared < b2i (caps j).shared ∨
              (b2i (caps i).shared = b2i (caps j).shared ∧ (i : Int) < (j : Int))))) := by
      simp only [compare_ce_for_channel_type]
      exact hdefault
    exact hbig.trans (by simp [key5Lt, ce_rank_key])
  | UVM_CHANNEL_TYPE_GPU_TO_GPU =>
    have hbig : compare_ce_for_channel_type caps UVM_CHANNEL_TYPE_GPU_TO_GPU i j
        usage_count < 0 ↔
        (-(b2i (caps i).nvlinkP2p) < -(b2i (caps j).nvlinkP2p) ∨
          (-(b2i (caps i).nvlinkP2p) = -(b2i (caps j).nvlinkP2p) ∧
            ((if (caps i).nvlinkP2p then -(hweight32 (caps i).cePceMask : Int) else 0)
                < (if (caps j).nvlinkP2p then -(hweight32 (caps j).cePceMask : Int) else 0) ∨
              ((if (caps i).nvlinkP2p then -(hweight32 (caps i).cePceMask : Int) else 0)
                  = (if (caps j).nvlinkP2p then -(hweight32 (caps j).cePceMask : Int) else 0) ∧
                ((usage_count i : Int) < (usage_count j : Int) ∨
                  ((usage_count i : Int) = (usage_count j : Int) ∧
                    (b2i (caps i).shared < b2i (caps j).shared ∨
                      (b2i (caps i).shared = b2i (caps j).shared ∧
                        (i : Int) < (j : Int))))))))) := by
      simp only [compare_ce_for_channel_type]
      refine stage_iff ?_ ?_ ?_
      · exact bool_ne_iff_b2i_neg_ne _ _
      · intro _
        omega
      · intro h1
        have hnleq : (caps i).nvlinkP2p = (caps j).nvlinkP2p := by
          by_contra hne
          exact h1 hne
        by_cases hnl : (caps i).nvlinkP2p = true
        · have hnlj : (caps j).nvlinkP2p = true := by rw [← hnleq]; exact hnl
          have e1 : (if (caps i).nvlinkP2p then
                -(hweight32 (caps i).cePceMask : Int) else 0)
              = -(hweight32 (caps i).cePceMask : Int) := if_pos hnl
          have e2 : (if (caps j).nvlinkP2p then
                -(hweight32 (caps j).cePceMask : Int) else 0)
              = -(hweight32 (caps j).cePceMask : Int) := if_pos hnlj
          rw [e1, e2, if_pos hnl]
          refine stage_iff ?_ ?_ ?_
          · constructor
            · intro h
              omega
            · intro h
              omega
          · intro _
            omega
          · intro _
            exact hdefault
        · have hnljn : ¬((caps j).nvlinkP2p = true) := by rw [← hnleq]; exact hnl
          have e1 : (if (caps i).nvlinkP2p then
                -(hweight32 (caps i).cePceMask : Int) else 0) = 0 := if_neg hnl
          have e2 : (if (caps j).nvlinkP2p then
                -(hweight32 (caps j).cePceMask : Int) else 0) = 0 := if_neg hnljn
          rw [e1, e2, if_neg hnl]
          rw [hdefault]
          constructor
          · intro h2
            exact Or.inr ⟨rfl, h2⟩
          · rintro (h2 | ⟨_, h2⟩)
            · omega
            · exact h2
    exact hbig.trans (by simp [key5Lt, ce_rank_key])

theorem foldl_pick_step_unusable (cc : Nat) (caps : Nat → UvmGpuCopyEngineCaps)
    (type : uvm_channel_type_t) (usage : Nat → Nat) :
    ∀ (l : List Nat) (b : Nat),
      (∀ i ∈ l, ce_usable_for_channel_type type (caps i) = false) →
      l.foldl (pick_step cc caps type usage) b = b := by
  intro l
  induction l with
  | nil => intro b _; rfl
  | cons a t ih =>
    intro b h
    have ha : ce_usable_for_channel_type type (caps a) = false := h a (by simp)
    rw [List.foldl_cons]
    have hstep : pick_step cc caps type usage b a = b := by
      unfold pick_step
      rw [ha]
      simp
    rw [hstep]
    exact ih b (fun i hi => h i (by simp [hi]))

/-- With no usable engine the scan keeps the sentinel. -/
theorem pick_best_ce_none (cc : Nat) (caps : Nat → UvmGpuCopyEngineCaps)
    (type : uvm_channel_type_t) (usage : Nat → Nat)
    (h : ∀ i, i < cc → ce_usable_for_channel_type type (caps i) = false) :
    pick_best_ce cc caps type usage = cc :=
  foldl_pick_step_unusable cc caps type usage (List.range cc) cc
    (fun i hi => h i (List.mem_range.mp hi))

/-- The engine selected for a type is the winner of the comparator chain:
it is eligible and the comparator strictly prefers it to every other
eligible engine. -/
def IsComparatorWinner (cc : Nat) (caps : Nat → UvmGpuCopyEngineCaps)
    (type : uvm_channel_type_t) (usage : Nat → Nat) (b : Nat) : Prop :=
  b < cc ∧ ce_usable_for_channel_type type (caps b) = true ∧
    ∀ j, j < cc → ce_usable_for_channel_type type (caps j) = true → j ≠ b →
      compare_ce_for_channel_type caps type b j usage < 0

theorem pick_fold_invariant (cc : Nat) (caps : Nat → UvmGpuCopyEngineCaps)
    (type : uvm_channel_type_t) (usage : Nat → Nat)
    (ht : type ≠ UVM_CHANNEL_TYPE_ANY)
    (hu : ∀ i, i < cc → usage i < 2 ^ 31) (hcc : cc ≤ 2 ^ 31) :
    ∀ k, k ≤ cc →
      (((List.range k).foldl (pick_step cc caps type usage) cc = cc
          ∧ ∀ i, i < k → ce_usable_for_channel_type type (caps i) = false)
        ∨ ((List.range k).foldl (pick_step cc caps type usage) cc < k
          ∧ ce_usable_for_channel_type type
              (caps ((List.range k).foldl (pick_step cc caps type usage) cc)) = true
          ∧ ∀ j, j < k → ce_usable_for_channel_type type (caps j) = true →
              j ≠ (List.range k).foldl (pick_step cc caps type usage) cc →
              key5Lt (ce_rank_key caps usage type
                  ((List.range k).foldl (pick_step cc caps type usage) cc))
                (ce_rank_key caps usage type j))) := by
  intro k
  induction k with
  | zero =>
    intro _
    left
    exact ⟨rfl, fun i hi => absurd hi (Nat.not_lt_zero i)⟩
  | succ k ih =>
    intro hk1
    have hk : k ≤ cc := by omega
    have hkcc : k < cc := by omega
    have hsplit : (List.range (k + 1)).foldl (pick_step cc caps type usage) cc
        = pick_step cc caps type usage
            ((List.range k).foldl (pick_step cc caps type usage) cc) k := by
      rw [List.range_succ, List.foldl_append]
      rfl
    rcases ih hk with ⟨hb, hnone⟩ | ⟨hlt, husable, hmin⟩
    · by_cases hu_k : ce_usable_for_channel_type type (caps k) = true
      · have hstep : pick_step cc caps type usage cc k = k := by
          unfold pick_step
          rw [hu_k]
          simp
        right
        rw [hsplit, hb, hstep]
        refine ⟨by omega, hu_k, ?_⟩
        intro j hj huj hne
        rcases Nat.lt_or_ge j k with hjk | hjk
        · exact absurd huj (by rw [hnone j hjk]; simp)
        · exact absurd (by omega : j = k) hne
      · have hfalse : ce_usable_for_channel_type type (caps k) = false := by
          cases hv : ce_usable_for_channel_type type (caps k)
          · rfl
          · exact absurd hv hu_k
        have hstep : pick_step cc caps type usage cc k = cc := by
          unfold pick_step
          rw [hfalse]
          simp
        left
        rw [hsplit, hb, hstep]
        refine ⟨rfl, ?_⟩
        intro i hi
        rcases Nat.lt_or_ge i k with hik | hik
        · exact hnone i hik
        · have hik2 : i = k := by omega
          rw [hik2]
          exact hfalse
    · set b := (List.range k).foldl (pick_step cc caps type usage) cc with hbdef
      have hbcc : b < cc := by omega
      have hbne : b ≠ cc := by omega
      by_cases hu_k : ce_usable_for_channel_type type (caps k) = true
      · have hiff := compare_lt_iff_keyLt caps usage type k b ht (hu k hkcc)
          (hu b hbcc) (by omega) (by omega)
        by_cases hcmp : compare_ce_for_channel_type caps type k b usage < 0
        · have hstep : pick_step cc caps type usage b k = k := by
            unfold pick_step
            rw [hu_k]
            simp [hbne, hcmp]
          right
          rw [hsplit, hstep]
          have hkey_kb := hiff.mp hcmp
          refine ⟨by omega, hu_k, ?_⟩
          intro j hj huj hne
          rcases Nat.lt_or_ge j k with hjk | hjk
          · by_cases hjb : j = b
            · rw [hjb]
              exact hkey_kb
            · exact key5Lt_trans hkey_kb (hmin j hjk huj hjb)
          · exact absurd (by omega : j = k) hne
        · have hstep : pick_step cc caps type usage b k = b := by
            unfold pick_step
            rw [hu_k]
            simp [hbne, hcmp]
          right
          rw [hsplit, hstep]
          refine ⟨by omega, husable, ?_⟩
          intro j hj huj hne
          rcases Nat.lt_or_ge j k with hjk | hjk
          · exact hmin j hjk huj hne
          · have hkb : k ≠ b := by omega
            have hkeyne := ce_rank_key_ne caps usage type hkb
            rcases key5Lt_or_gt hkeyne with hlt2 | hgt2
            · exact absurd (hiff.mpr hlt2) hcmp
            · have hjeq : j = k := by omega
              rw [hjeq]
              exact hgt2
      · have hfalse : ce_usable_for_channel_type type (caps k) = false := by
          cases hv : ce_usable_for_channel_type type (caps k)
          · rfl
          · exact absurd hv hu_k
        have hstep : pick_step cc caps type usage b k = b := by
          unfold pick_step
          rw [hfalse]
          simp
        right
        rw [hsplit, hstep]
        refine ⟨by omega, husable, ?_⟩
        intro j hj huj hne
        rcases Nat.lt_or_ge j k with hjk | hjk
        · exact hmin j hjk huj hne
        · have hjeq : j = k := by omega
          rw [hjeq] at huj
          rw [hfalse] at huj
          exact absurd huj (by simp)

/-- With at least one usable engine the scan selects the comparator-chain
winner. -/
theorem pick_best_ce_winner (cc : Nat) (caps : Nat → UvmGpuCopyEngineCaps)
    (type : uvm_channel_type_t) (usage : Nat → Nat)
    (ht : type ≠ UVM_CHANNEL_TYPE_ANY)
    (hu : ∀ i, i < cc → usage i < 2 ^ 31) (hcc : cc ≤ 2 ^ 31)
    (hex : ∃ i, i < cc ∧ ce_usable_for_channel_type type (caps i) = true) :
    IsComparatorWinner cc caps type usage (pick_best_ce cc caps type usage) := by
  unfold IsComparatorWinner pick_best_ce
  have hinv := pick_fold_invariant cc caps type usage ht hu hcc cc (le_refl cc)
  rcases hinv with ⟨_, hnone⟩ | ⟨hlt, husable, hmin⟩
  · obtain ⟨i, hi, hui⟩ := hex
    rw [hnone i hi] at hui
    exact absurd hui (by simp)
  · refine ⟨hlt, husable, ?_⟩
    intro j hj huj hne
    have hbcc : (List.range cc).foldl (pick_step cc caps type usage) cc < cc := hlt
    exact (compare_lt_iff_keyLt caps usage type _ j ht (hu _ hbcc) (hu j hj)
      (by omega) (by omega)).mpr (hmin j hj huj hne)

theorem pick_ce_usage_le (cc : Nat) (caps : Nat → UvmGpuCopyEngineCaps)
    (type : uvm_channel_type_t) (u : Nat → Nat) (a : uvm_channel_type_t → Nat)
    (j : Nat) :
    (pick_ce_for_channel_type cc caps type u a).1 j ≤ u j + 1 := by
  simp only [pick_ce_for_channel_type]
  split_ifs <;> omega

theorem usage_bound_1 (cc : Nat) (caps : Nat → UvmGpuCopyEngineCaps) (j : Nat) :
    (pick_state_1 cc caps).1 j ≤ 1 := by
  have h := pick_ce_usage_le cc caps UVM_CHANNEL_TYPE_CPU_TO_GPU
    (fun _ => 0) (fun _ => cc) j
  exact h

theorem usage_bound_2 (cc : Nat) (caps : Nat → UvmGpuCopyEngineCaps) (j : Nat) :
    (pick_state_2 cc caps).1 j ≤ 2 := by
  have h : (pick_state_2 cc caps).1 j ≤ (pick_state_1 cc caps).1 j + 1 :=
    pick_ce_usage_le cc caps UVM_CHANNEL_TYPE_GPU_TO_CPU
      (pick_state_1 cc caps).1 (pick_state_1 cc caps).2 j
  have h1 := usage_bound_1 cc caps j
  omega

theorem usage_bound_3 (cc : Nat) (caps : Nat → UvmGpuCopyEngineCaps) (j : Nat) :
    (pick_state_3 cc caps).1 j ≤ 3 := by
  have h : (pick_state_3 cc caps).1 j ≤ (pick_state_2 cc caps).1 j + 1 :=
    pick_ce_usage_le cc caps UVM_CHANNEL_TYPE_GPU_INTERNAL
      (pick_state_2 cc caps).1 (pick_state_2 cc caps).2 j
  have h2 := usage_bound_2 cc caps j
  omega

theorem usage_bound_4 (cc : Nat) (caps : Nat → UvmGpuCopyEngineCaps) (j : Nat) :
    (pick_state_4 cc caps).1 j ≤ 4 := by
  have h : (pick_state_4 cc caps).1 j ≤ (pick_state_3 cc caps).1 j + 1 :=
    pick_ce_usage_le cc caps UVM_CHANNEL_TYPE_GPU_TO_GPU
      (pick_state_3 cc caps).1 (pick_state_3 cc caps).2 j
  have h3 := usage_bound_3 cc caps j
  omega

theorem manager_assignment_cpu_to_gpu (cc : Nat) (caps : Nat → UvmGpuCopyEngineCaps) :
    (channel_manager_pick_copy_engines cc caps).2 UVM_CHANNEL_TYPE_CPU_TO_GPU
      = pick_best_ce cc caps UVM_CHANNEL_TYPE_CPU_TO_GPU (fun _ => 0) := by
  simp [channel_manager_pick_copy_engines, pick_state_5, pick_state_4, pick_state_3,
    pick_state_2, pick_state_1, pick_ce_for_channel_type]

theorem manager_assignment_gpu_to_cpu (cc : Nat) (caps : Nat → UvmGpuCopyEngineCaps) :
    (channel_manager_pick_copy_engines cc caps).2 UVM_CHANNEL_TYPE_GPU_TO_CPU
      = pick_best_ce cc caps UVM_CHANNEL_TYPE_GPU_TO_CPU (pick_state_1 cc caps).1 := by
  simp [channel_manager_pick_copy_engines, pick_state_5, pick_state_4, pick_state_3,
    pick_state_2, pick_ce_for_channel_type]

theorem manager_assignment_gpu_internal (cc : Nat) (caps : Nat → UvmGpuCopyEngineCaps) :
    (channel_manager_pick_copy_engines cc caps).2 UVM_CHANNEL_TYPE_GPU_INTERNAL
      = pick_best_ce cc caps UVM_CHANNEL_TYPE_GPU_INTERNAL (pick_state_2 cc caps).1 := by
  simp [channel_manager_pick_copy_engines, pick_state_5, pick_state_4, pick_state_3,
    pick_ce_for_channel_type]

theorem manager_assignment_gpu_to_gpu (cc : Nat) (caps : Nat → UvmGpuCopyEngineCaps) :
    (channel_manager_pick_copy_engines cc caps).2 UVM_CHANNEL_TYPE_GPU_TO_GPU
      = pick_best_ce cc caps UVM_CHANNEL_TYPE_GPU_TO_GPU (pick_state_3 cc caps).1 := by
  simp [channel_manager_pick_copy_engines, pick_state_5, pick_state_4,
    pick_ce_for_channel_type]

theorem manager_assignment_memops (cc : Nat) (caps : Nat → UvmGpuCopyEngineCaps) :
    (channel_manager_pick_copy_engines cc caps).2 UVM_CHANNEL_TYPE_MEMOPS
      = pick_best_ce cc caps UVM_CHANNEL_TYPE_MEMOPS (pick_state_4 cc caps).1 := by
  simp [channel_manager_pick_copy_engines, pick_state_5, pick_ce_for_channel_type]

theorem compare_ce_congr (caps caps2 : Nat → UvmGpuCopyEngineCaps)
    (usage : Nat → Nat) (type : uvm_channel_type_t) (i j : Nat)
    (hi : caps i = caps2 i) (hj : caps j = caps2 j) :
    compare_ce_for_channel_type caps type i j usage
      = compare_ce_for_channel_type caps2 type i j usage := by
  unfold compare_ce_for_channel_type compare_ce_default_order
  rw [hi, hj]

theorem pick_step_congr (cc : Nat) (caps caps2 : Nat → UvmGpuCopyEngineCaps)
    (type : uvm_channel_type_t) (usage : Nat → Nat)
    (h : ∀ i, i < cc → caps i = caps2 i) (b a : Nat) (ha : a < cc)
    (hb : b = cc ∨ b < cc) :
    pick_step cc caps type usage b a = pick_step cc caps2 type usage b a := by
  unfold pick_step
  rw [h a ha]
  rcases hb with hb | hb
  · subst hb
    by_cases huse : ce_usable_for_channel_type type (caps2 a) = false <;> simp [huse]
  · rw [compare_ce_congr caps caps2 usage type a b (h a ha) (h b hb)]

theorem pick_step_cases (cc : Nat) (caps : Nat → UvmGpuCopyEngineCaps)
    (type : uvm_channel_type_t) (usage : Nat → Nat) (b a : Nat) :
    pick_step cc caps type usage b a = b ∨ pick_step cc caps type usage b a = a := by
  unfold pick_step
  split_ifs <;> simp

theorem foldl_pick_step_congr (cc : Nat) (caps caps2 : Nat → UvmGpuCopyEngineCaps)
    (type : uvm_channel_type_t) (usage : Nat → Nat)
    (h : ∀ i, i < cc → caps i = caps2 i) :
    ∀ (l : List Nat), (∀ i ∈ l, i < cc) → ∀ b, (b = cc ∨ b < cc) →
      l.foldl (pick_step cc caps type usage) b
        = l.foldl (pick_step cc caps2 type usage) b := by
  intro l
  induction l with
  | nil => intro _ b _; rfl
  | cons a t ih =>
    intro hl b hb
    have ha : a < cc := hl a (by simp)
    rw [List.foldl_cons, List.foldl_cons,
      pick_step_congr cc caps caps2 type usage h b a ha hb]
    apply ih (fun i hi => hl i (by simp [hi]))
    rcases pick_step_cases cc caps2 type usage b a with he | he
    · rw [he]
      exact hb
    · rw [he]
      right
      exact ha

theorem pick_best_ce_congr (cc : Nat) (caps caps2 : Nat → UvmGpuCopyEngineCaps)
    (type : uvm_channel_type_t) (usage : Nat → Nat)
    (h : ∀ i, i < cc → caps i = caps2 i) :
    pick_best_ce cc caps type usage = pick_best_ce cc caps2 type usage := by
  unfold pick_best_ce
  exact foldl_pick_step_congr cc caps caps2 type usage h (List.range cc)
    (fun i hi => List.mem_range.mp hi) cc (Or.inl rfl)

theorem pick_ce_congr (cc : Nat) (caps caps2 : Nat → UvmGpuCopyEngineCaps)
    (type : uvm_channel_type_t) (u : Nat → Nat) (a : uvm_channel_type_t → Nat)
    (hbest : pick_best_ce cc caps type u = pick_best_ce cc caps2 type u) :
    pick_ce_for_channel_type cc caps type u a
      = pick_ce_for_channel_type cc caps2 type u a := by
  unfold pick_ce_for_channel_type
  rw [hbest]

theorem manager_pick_congr (cc : Nat) (caps caps2 : Nat → UvmGpuCopyEngineCaps)
    (h : ∀ i, i < cc → caps i = caps2 i) :
    channel_manager_pick_copy_engines cc caps
      = channel_manager_pick_copy_engines cc caps2 := by
  have e1 : pick_state_1 cc caps = pick_state_1 cc caps2 :=
    pick_ce_congr cc caps caps2 _ _ _ (pick_best_ce_congr cc caps caps2 _ _ h)
  have e2 : pick_state_2 cc caps = pick_state_2 cc caps2 := by
    unfold pick_state_2
    rw [e1]
    exact pick_ce_congr cc caps caps2 _ _ _ (pick_best_ce_congr cc caps caps2 _ _ h)
  have e3 : pick_state_3 cc caps = pick_state_3 cc caps2 := by
    unfold pick_state_3
    rw [e2]
    exact pick_ce_congr cc caps caps2 _ _ _ (pick_best_ce_congr cc caps caps2 _ _ h)
  have e4 : pick_state_4 cc caps = pick_state_4 cc caps2 := by
    unfold pick_state_4
    rw [e3]
    exact pick_ce_congr cc caps caps2 _ _ _ (pick_best_ce_congr cc caps caps2 _ _ h)
  have e5 : pick_state_5 cc caps = pick_state_5 cc caps2 := by
    unfold pick_state_5
    rw [e4]
    exact pick_ce_congr cc caps caps2 _ _ _ (pick_best_ce_congr cc caps caps2 _ _ h)
  unfold channel_manager_pick_copy_engines
  rw [e5]

/-- C6: engine selection is a deterministic function of the capability
table.  Two runs on capability tables that agree on every engine index
assign identical engines (the selection reads nothing else), and for each
channel type, processed in the fixed order CPU_TO_GPU, GPU_TO_CPU,
GPU_INTERNAL, GPU_TO_GPU, MEMOPS (with usage counts accumulating across
that order), the assigned engine is exactly the winner of the ordered
comparator chain among the eligible engines whenever any engine is
eligible.  `cc ≤ 2^31` reflects that the engine-table size
UVM_COPY_ENGINE_COUNT_MAX is a small compile-time constant. -/
theorem engine_selection_winner_spec (cc : Nat) (caps : Nat → UvmGpuCopyEngineCaps)
    (hcc : cc ≤ 2 ^ 31) :
    (∀ caps2, (∀ i, i < cc → caps i = caps2 i) →
        channel_manager_pick_copy_engines cc caps
          = channel_manager_pick_copy_engines cc caps2)
    ∧ ((channel_manager_pick_copy_engines cc caps).2 UVM_CHANNEL_TYPE_CPU_TO_GPU
          = pick_best_ce cc caps UVM_CHANNEL_TYPE_CPU_TO_GPU (fun _ => 0)
        ∧ ((∃ i, i < cc ∧ ce_usable_for_channel_type UVM_CHANNEL_TYPE_CPU_TO_GPU
              (caps i) = true) →
            IsComparatorWinner cc caps UVM_CHANNEL_TYPE_CPU_TO_GPU (fun _ => 0)
              ((channel_manager_pick_copy_engines cc caps).2
                UVM_CHANNEL_TYPE_CPU_TO_GPU)))
    ∧ ((channel_manager_pick_copy_engines cc caps).2 UVM_CHANNEL_TYPE_GPU_TO_CPU
          = pick_best_ce cc caps UVM_CHANNEL_TYPE_GPU_TO_CPU (pick_state_1 cc caps).1
        ∧ ((∃ i, i < cc ∧ ce_usable_for_channel_type UVM_CHANNEL_TYPE_GPU_TO_CPU
              (caps i) = true) →
            IsComparatorWinner cc caps UVM_CHANNEL_TYPE_GPU_TO_CPU
              (pick_state_1 cc caps).1
              ((channel_manager_pick_copy_engines cc caps).2
                UVM_CHANNEL_TYPE_GPU_TO_CPU)))
    ∧ ((channel_manager_pick_copy_engines cc caps).2 UVM_CHANNEL_TYPE_GPU_INTERNAL
          = pick_best_ce cc caps UVM_CHANNEL_TYPE_GPU_INTERNAL (pick_state_2 cc caps).1
        ∧ ((∃ i, i < cc ∧ ce_usable_for_channel_type UVM_CHANNEL_TYPE_GPU_INTERNAL
              (caps i) = true) →
            IsComparatorWinner cc caps UVM_CHANNEL_TYPE_GPU_INTERNAL
              (pick_state_2 cc caps).1
              ((channel_manager_pick_copy_engines cc caps).2
                UVM_CHANNEL_TYPE_GPU_INTERNAL)))
    ∧ ((channel_manager_pick_copy_engines cc caps).2 UVM_CHANNEL_TYPE_GPU_TO_GPU
          = pick_best_ce cc caps UVM_CHANNEL_TYPE_GPU_TO_GPU (pick_state_3 cc caps).1
        ∧ ((∃ i, i < cc ∧ ce_usable_for_channel_type UVM_CHANNEL_TYPE_GPU_TO_GPU
              (caps i) = true) →
            IsComparatorWinner cc caps UVM_CHANNEL_TYPE_GPU_TO_GPU
              (pick_state_3 cc caps).1
              ((channel_manager_pick_copy_engines cc caps).2
                UVM_CHANNEL_TYPE_GPU_TO_GPU)))
    ∧ ((channel_manager_pick_copy_engines cc caps).2 UVM_CHANNEL_TYPE_MEMOPS
          = pick_best_ce cc caps UVM_CHANNEL_TYPE_MEMOPS (pick_state_4 cc caps).1
        ∧ ((∃ i, i < cc ∧ ce_usable_for_channel_type UVM_CHANNEL_TYPE_MEMOPS
              (caps i) = true) →
            IsComparatorWinner cc caps UVM_CHANNEL_TYPE_MEMOPS
              (pick_state_4 cc caps).1
              ((channel_manager_pick_copy_engines cc caps).2
                UVM_CHANNEL_TYPE_MEMOPS))) := by
  refine ⟨manager_pick_congr cc caps, ?_, ?_, ?_, ?_, ?_⟩
  · refine ⟨manager_assignment_cpu_to_gpu cc caps, ?_⟩
    intro hex
    rw [manager_assignment_cpu_to_gpu cc caps]
    exact pick_best_ce_winner cc caps UVM_CHANNEL_TYPE_CPU_TO_GPU (fun _ => 0)
      (by decide) (fun i _ => by show (0 : Nat) < 2 ^ 31; norm_num) hcc hex
  · refine ⟨manager_assignment_gpu_to_cpu cc caps, ?_⟩
    intro hex
    rw [manager_assignment_gpu_to_cpu cc caps]
    exact pick_best_ce_winner cc caps UVM_CHANNEL_TYPE_GPU_TO_CPU
      (pick_state_1 cc caps).1 (by decide)
      (fun i _ => by have := usage_bound_1 cc caps i; omega) hcc hex
  · refine ⟨manager_assignment_gpu_internal cc caps, ?_⟩
    intro hex
    rw [manager_assignment_gpu_internal cc caps]
    exact pick_best_ce_winner cc caps UVM_CHANNEL_TYPE_GPU_INTERNAL
      (pick_state_2 cc caps).1 (by decide)
      (fun i _ => by have := usage_bound_2 cc caps i; omega) hcc hex
  · refine ⟨manager_assignment_gpu_to_gpu cc caps, ?_⟩
    intro hex
    rw [manager_assignment_gpu_to_gpu cc caps]
    exact pick_best_ce_winner cc caps UVM_CHANNEL_TYPE_GPU_TO_GPU
      (pick_state_3 cc caps).1 (by decide)
      (fun i _ => by have := usage_bound_3 cc caps i; omega) hcc hex
  · refine ⟨manager_assignment_memops cc caps, ?_⟩
    intro hex
    rw [manager_assignment_memops cc caps]
    exact pick_best_ce_winner cc caps UVM_CHANNEL_TYPE_MEMOPS
      (pick_state_4 cc caps).1 (by decide)
      (fun i _ => by have := usage_bound_4 cc caps i; omega) hcc hex

/-- A capability table in which both engines are fully capable. -/
def caps_full_example : Nat → UvmGpuCopyEngineCaps := fun _ =>
  { supported := true, grce := false, shared := false, sysmemRead := true,
    sysmemWrite := true, sysmem := true, nvlinkP2p := true, p2p := true,
    cePceMask := 1 }

/-- Witness for C6 at a concrete two-engine table. -/
theorem engine_selection_winner_spec_witness :
    (channel_manager_pick_copy_engines 2 caps_full_example).2
        UVM_CHANNEL_TYPE_CPU_TO_GPU
      = pick_best_ce 2 caps_full_example UVM_CHANNEL_TYPE_CPU_TO_GPU (fun _ => 0) :=
  (engine_selection_winner_spec 2 caps_full_example (by norm_num)).2.1.1

/-- C9: a capability table in which some channel type has no eligible
engine makes channel_manager_pick_copy_engines fail with
NV_ERR_NOT_SUPPORTED, and uvm_channel_manager_create_common (whose earlier
external steps succeeded) propagates that error and produces no
manager. -/
theorem no_eligible_engine_fails (env : create_common_env) (cc : Nat)
    (caps : Nat → UvmGpuCopyEngineCaps) (t : uvm_channel_type_t)
    (hpb : env.pushbuffer_status = NV_STATUS.NV_OK)
    (hpd : env.procfs_dirs_status = NV_STATUS.NV_OK)
    (ht : t ≠ UVM_CHANNEL_TYPE_ANY)
    (hnone : ∀ i, i < cc → ce_usable_for_channel_type t (caps i) = false) :
    (channel_manager_pick_copy_engines cc caps).1 = NV_STATUS.NV_ERR_NOT_SUPPORTED
    ∧ uvm_channel_manager_create_common env cc caps
        = (NV_STATUS.NV_ERR_NOT_SUPPORTED, false) := by
  have hassign : (channel_manager_pick_copy_engines cc caps).2 t = cc := by
    cases t with
    | UVM_CHANNEL_TYPE_ANY => exact absurd rfl ht
    | UVM_CHANNEL_TYPE_CPU_TO_GPU =>
      rw [manager_assignment_cpu_to_gpu]
      exact pick_best_ce_none cc caps _ _ hnone
    | UVM_CHANNEL_TYPE_GPU_TO_CPU =>
      rw [manager_assignment_gpu_to_cpu]
      exact pick_best_ce_none cc caps _ _ hnone
    | UVM_CHANNEL_TYPE_GPU_INTERNAL =>
      rw [manager_assignment_gpu_internal]
      exact pick_best_ce_none cc caps _ _ hnone
    | UVM_CHANNEL_TYPE_GPU_TO_GPU =>
      rw [manager_assignment_gpu_to_gpu]
      exact pick_best_ce_none cc caps _ _ hnone
    | UVM_CHANNEL_TYPE_MEMOPS =>
      rw [manager_assignment_memops]
      exact pick_best_ce_none cc caps _ _ hnone
  have hcond : ((channel_manager_pick_copy_engines cc caps).2
        UVM_CHANNEL_TYPE_CPU_TO_GPU = cc
      ∨ (channel_manager_pick_copy_engines cc caps).2
          UVM_CHANNEL_TYPE_GPU_TO_CPU = cc
      ∨ (channel_manager_pick_copy_engines cc caps).2
          UVM_CHANNEL_TYPE_GPU_INTERNAL = cc
      ∨ (channel_manager_pick_copy_engines cc caps).2
          UVM_CHANNEL_TYPE_MEMOPS = cc
      ∨ (channel_manager_pick_copy_engines cc caps).2
          UVM_CHANNEL_TYPE_GPU_TO_GPU = cc) := by
    cases t with
    | UVM_CHANNEL_TYPE_ANY => exact absurd rfl ht
    | UVM_CHANNEL_TYPE_CPU_TO_GPU => exact Or.inl hassign
    | UVM_CHANNEL_TYPE_GPU_TO_CPU => exact Or.inr (Or.inl hassign)
    | UVM_CHANNEL_TYPE_GPU_INTERNAL => exact Or.inr (Or.inr (Or.inl hassign))
    | UVM_CHANNEL_TYPE_MEMOPS => exact Or.inr (Or.inr (Or.inr (Or.inl hassign)))
    | UVM_CHANNEL_TYPE_GPU_TO_GPU => exact Or.inr (Or.inr (Or.inr (Or.inr hassign)))
  have hstatus : (channel_manager_pick_copy_engines cc caps).1
      = NV_STATUS.NV_ERR_NOT_SUPPORTED := by
    have hcond2 : ((pick_state_5 cc caps).2 UVM_CHANNEL_TYPE_CPU_TO_GPU = cc
        ∨ (pick_state_5 cc caps).2 UVM_CHANNEL_TYPE_GPU_TO_CPU = cc
        ∨ (pick_state_5 cc caps).2 UVM_CHANNEL_TYPE_GPU_INTERNAL = cc
        ∨ (pick_state_5 cc caps).2 UVM_CHANNEL_TYPE_MEMOPS = cc
        ∨ (pick_state_5 cc caps).2 UVM_CHANNEL_TYPE_GPU_TO_GPU = cc) := hcond
    simp only [channel_manager_pick_copy_engines]
    rw [if_pos hcond2]
  refine ⟨hstatus, ?_⟩
  simp [uvm_channel_manager_create_common, hpb, hpd, hstatus]

/-- An environment in which every external collaborator of manager
construction succeeds. -/
def create_common_env_ok : create_common_env :=
  { pushbuffer_status := NV_STATUS.NV_OK, with_procfs := false,
    procfs_dirs_status := NV_STATUS.NV_OK, pools_status := NV_STATUS.NV_OK,
    init_channels_status := NV_STATUS.NV_OK, procfs_status := NV_STATUS.NV_OK }

/-- A capability table with no usable engine at all. -/
def caps_none_example : Nat → UvmGpuCopyEngineCaps := fun _ =>
  { supported := false, grce := false, shared := false, sysmemRead := false,
    sysmemWrite := false, sysmem := false, nvlinkP2p := false, p2p := false,
    cePceMask := 0 }

/-- Witness for C9: an all-unsupported table fails construction. -/
theorem no_eligible_engine_fails_witness :
    uvm_channel_manager_create_common create_common_env_ok 4 caps_none_example
      = (NV_STATUS.NV_ERR_NOT_SUPPORTED, false) :=
  (no_eligible_engine_fails create_common_env_ok 4 caps_none_example
    UVM_CHANNEL_TYPE_CPU_TO_GPU rfl rfl (by decide) (fun i _ => rfl)).2

/-- C10 evaluation: on a table with no eligible engine for CPU_TO_GPU the
best_ce scan returns the sentinel UVM_COPY_ENGINE_COUNT_MAX (= ce_count,
here 4), so it is not strictly below the array size, and the
unconditional `++usage_count[best_ce]` of pick_ce_for_channel_type
increments the usage cell at index ce_count - one past the end of the C
array `NvU32 usage_count[UVM_COPY_ENGINE_COUNT_MAX]`. -/
theorem pick_ce_usage_write_out_of_bounds :
    pick_best_ce 4 caps_none_example UVM_CHANNEL_TYPE_CPU_TO_GPU (fun _ => 0) = 4
    ∧ ¬ (pick_best_ce 4 caps_none_example UVM_CHANNEL_TYPE_CPU_TO_GPU (fun _ => 0) < 4)
    ∧ (pick_state_1 4 caps_none_example).1 4 = 1 := by
  refine ⟨by decide, by decide, by decide⟩

end UvmChannel
